import Mathlib

set_option maxHeartbeats 1600000
set_option maxRecDepth 8000

unseal Rat.add Rat.mul Rat.sub Rat.inv Rat.ofScientific

/-!
Shallow embedding of the storm-trajectory manipulation code in
`inline_model_storms/trajectory_manipulations.py` (and the parts of
`inline_model_storms/save_trajectories.py` relevant to the storm data model),
together with theorems settling the specification claims about it.

Modelling conventions:
* Python floats are modelled as exact rationals (`ℚ`); Python ints as `ℤ`.
* Fallible Python operations (indexing, `%` and `/` with a zero divisor,
  dictionary lookup, `int()`/`float()` parsing, undefined local variables)
  are modelled in the `Except PyErr` monad.
* Text files are modelled as lists of lines, each line carrying its trailing
  newline exactly as produced by Python file iteration.
-/

deriving instance DecidableEq for Except

/-- The Python runtime error kinds that the embedded code can raise. -/
inductive PyErr where
  | zeroDivision : PyErr
  | keyError : String → PyErr
  | indexError : PyErr
  | valueError : PyErr
  | typeError : PyErr
  | nameError : PyErr

deriving instance DecidableEq for PyErr

/-- Python list indexing `l[k]` for `k ≥ 0`; raises `IndexError` out of range. -/
def listGetE {α : Type} (l : List α) (k : Nat) : Except PyErr α :=
  match l.get? k with
  | some a => .ok a
  | none => .error .indexError

/-- Python `l[-1]`; raises `IndexError` on an empty list. -/
def lastE {α : Type} (l : List α) : Except PyErr α :=
  match l.getLast? with
  | some a => .ok a
  | none => .error .indexError

/-- Python `a % b` on floats: the result has the sign of the divisor,
`a - b * floor (a / b)`; raises `ZeroDivisionError` for `b = 0`. -/
def pymodE (a b : ℚ) : Except PyErr ℚ :=
  if b = 0 then .error .zeroDivision else .ok (a - b * (⌊a / b⌋ : ℚ))

/-- The value of `a % b` when `b ≠ 0` (used in specification statements). -/
def pymodQ (a b : ℚ) : ℚ := a - b * (⌊a / b⌋ : ℚ)

/-- Python true division `a / b`; raises `ZeroDivisionError` for `b = 0`. -/
def pydivE (a b : ℚ) : Except PyErr ℚ :=
  if b = 0 then .error .zeroDivision else .ok (a / b)

/-- Python `round` to the nearest integer, ties to the even integer
(banker's rounding), on exact rationals. -/
def pyroundZ (x : ℚ) : ℤ :=
  if x - (⌊x⌋ : ℚ) < 1/2 then ⌊x⌋
  else if 1/2 < x - (⌊x⌋ : ℚ) then ⌊x⌋ + 1
  else if ⌊x⌋ % 2 = 0 then ⌊x⌋ else ⌊x⌋ + 1

/-- The power `10 ^ d` as a rational. -/
def qpow10 (d : Nat) : ℚ := (10 : ℚ) ^ d

/-- Python `round(x, d)`: round to `d` decimal places, ties to even. -/
def pyroundDp (d : Nat) (x : ℚ) : ℚ := ((pyroundZ (x * qpow10 d) : ℤ) : ℚ) / qpow10 d

/-- Python `int()` applied to a float: truncation toward zero. -/
def pytrunc (x : ℚ) : ℤ := if 0 ≤ x then ⌊x⌋ else -⌊-x⌋

/-- First-match lookup in an association list (a Python `dict` read `d[k]`,
as `Option`). -/
def assocFind {α β : Type} [DecidableEq α] (vs : List (α × β)) (k : α) : Option β :=
  match vs with
  | [] => none
  | (n, v) :: rest => if n = k then some v else assocFind rest k

/-- Replace the value stored under key `k` (a Python in-place mutation of the
object found at `d[k]`); keys not present are left untouched. -/
def assocSet {α β : Type} [DecidableEq α] (vs : List (α × β)) (k : α) (v : β) :
    List (α × β) :=
  match vs with
  | [] => []
  | (n, w) :: rest => if n = k then (n, v) :: rest else (n, w) :: assocSet rest k v

/-- The calendar families backing the `DATETIME_TYPES` mapping of
`trajectory_manipulations.py` (cftime datetime classes). `gregorian` here
covers cftime's Gregorian and proleptic-Gregorian classes, whose arithmetic
agrees on the post-1582 model dates this code handles. -/
inductive CalKind where
  | noleap : CalKind
  | allLeap : CalKind
  | day360 : CalKind
  | julian : CalKind
  | gregorian : CalKind

deriving instance DecidableEq for CalKind

/-- The `DATETIME_TYPES` dictionary: calendar name → cftime datetime class. -/
def DATETIME_TYPES (calendar : String) : Option CalKind :=
  if calendar = "noleap" then some .noleap
  else if calendar = "365_day" then some .noleap
  else if calendar = "all_leap" then some .allLeap
  else if calendar = "360_day" then some .day360
  else if calendar = "julian" then some .julian
  else if calendar = "gregorian" then some .gregorian
  else if calendar = "standard" then some .gregorian
  else if calendar = "proleptic_gregorian" then some .gregorian
  else none

/-- Leap-year rule of each calendar family. -/
def isLeap (k : CalKind) (y : Int) : Bool :=
  match k with
  | .noleap => false
  | .allLeap => true
  | .day360 => false
  | .julian => y % 4 = 0
  | .gregorian => (y % 4 = 0 ∧ ¬ y % 100 = 0) ∨ y % 400 = 0

/-- Days in month `m` of year `y` for calendar `k`. -/
def daysInMonth (k : CalKind) (y m : Int) : Int :=
  match k with
  | .day360 => 30
  | _ =>
    if m = 1 then 31
    else if m = 2 then (if isLeap k y then 29 else 28)
    else if m = 3 then 31
    else if m = 4 then 30
    else if m = 5 then 31
    else if m = 6 then 30
    else if m = 7 then 31
    else if m = 8 then 31
    else if m = 9 then 30
    else if m = 10 then 31
    else if m = 11 then 30
    else 31

/-- The calendar day after `(y, m, d)`. -/
def nextDay (k : CalKind) (y m d : Int) : Int × Int × Int :=
  if d < daysInMonth k y m then (y, m, d + 1)
  else if m < 12 then (y, m + 1, 1)
  else (y + 1, 1, 1)

/-- The calendar day before `(y, m, d)`. -/
def prevDay (k : CalKind) (y m d : Int) : Int × Int × Int :=
  if 1 < d then (y, m, d - 1)
  else if 1 < m then (y, m - 1, daysInMonth k y (m - 1))
  else (y - 1, 12, daysInMonth k (y - 1) 12)

/-- Step `n` calendar days forward. -/
def addDaysF (k : CalKind) : Nat → Int × Int × Int → Int × Int × Int
  | 0, t => t
  | n + 1, (y, m, d) => addDaysF k n (nextDay k y m d)

/-- Step `n` calendar days backward. -/
def addDaysB (k : CalKind) : Nat → Int × Int × Int → Int × Int × Int
  | 0, t => t
  | n + 1, (y, m, d) => addDaysB k n (prevDay k y m d)

/-- Add `tp` hours to the calendar datetime `(y, m, d, h)`: cftime
`datetime + timedelta(hours=tp)`. -/
def calAddHours (k : CalKind) (y m d h tp : Int) : Int × Int × Int × Int :=
  let t := h + tp
  let h2 := t % 24
  let days := (t - h2) / 24
  let ymd :=
    if 0 ≤ days then addDaysF k days.toNat (y, m, d)
    else addDaysB k (-days).toNat (y, m, d)
  (ymd.1, ymd.2.1, ymd.2.2, h2)

/-- The slice of an iris cube that the trajectory code reads: the calendar
string of its time coordinate and the grid width `cube.shape[-1]`. -/
structure Cube where
  calendar : String
  nx : Int

deriving instance DecidableEq for Cube

/-- Embedding of `_calculate_gap_time`: the date/time one `time_period` after
`(year, month, day, hour)` under the cube's calendar. An unknown calendar
name raises `KeyError` (the `DATETIME_TYPES[calendar]` lookup). -/
def calculate_gap_time (cube : Cube) (year month day hour : Int)
    (time_period : Int) : Except PyErr (Int × Int × Int × Int) :=
  match DATETIME_TYPES cube.calendar with
  | none => .error (.keyError cube.calendar)
  | some k => .ok (calAddHours k year month day hour time_period)

/-- A per-point auxiliary-variable value: either a scalar (interpolable) or a
profile, i.e. a Python list (not interpolable). -/
inductive AuxVal where
  | scalar : ℚ → AuxVal
  | profile : List ℚ → AuxVal

deriving instance DecidableEq for AuxVal

/-- A storm dictionary in the shape produced by the trajectory assembly
around `fill_trajectory_gaps_new`: parallel per-point arrays for the
structural keys plus named auxiliary-variable columns. -/
structure Storm where
  step : List Int
  lon : List ℚ
  lat : List ℚ
  i : List Int
  j : List Int
  track_id : List Int
  year : List Int
  month : List Int
  day : List Int
  hour : List Int
  vars : List (String × List AuxVal)

deriving instance DecidableEq for Storm

/-- One iteration of the position/time loop of `fill_trajectory_gaps_new`
(loop body for a single `gap_index`): append one interpolated point. -/
def fillStep (cube : Cube) (time_period : Int) (dlon dlat dx dy : ℚ)
    (nx : Int) (s : Storm) : Except PyErr Storm :=
  match lastE s.lon with
  | .error e => .error e
  | .ok lonL =>
  match pymodE (lonL + dlon) 360 with
  | .error e => .error e
  | .ok lonm =>
  let lon1 := pyroundDp 6 lonm
  match lastE s.lat with
  | .error e => .error e
  | .ok latL =>
  let lat1 := pyroundDp 6 (latL + dlat)
  match lastE s.i with
  | .error e => .error e
  | .ok iL =>
  match pymodE ((iL : ℚ) + dx) (nx : ℚ) with
  | .error e => .error e
  | .ok xm =>
  let x1 := pytrunc xm
  match lastE s.j with
  | .error e => .error e
  | .ok jL =>
  let y1 := pytrunc ((jL : ℚ) + dy)
  match lastE s.step with
  | .error e => .error e
  | .ok stepL =>
  match lastE s.track_id with
  | .error e => .error e
  | .ok tidL =>
  match lastE s.year with
  | .error e => .error e
  | .ok yL =>
  match lastE s.month with
  | .error e => .error e
  | .ok mL =>
  match lastE s.day with
  | .error e => .error e
  | .ok dL =>
  match lastE s.hour with
  | .error e => .error e
  | .ok hL =>
  match calculate_gap_time cube yL mL dL hL time_period with
  | .error e => .error e
  | .ok tc =>
    .ok { s with
      lon := s.lon ++ [lon1]
      lat := s.lat ++ [lat1]
      i := s.i ++ [x1]
      j := s.j ++ [y1]
      step := s.step ++ [stepL + 1]
      track_id := s.track_id ++ [tidL]
      year := s.year ++ [tc.1]
      month := s.month ++ [tc.2.1]
      day := s.day ++ [tc.2.2.1]
      hour := s.hour ++ [tc.2.2.2] }

/-- The `for gap_index in range(1, gap_length)` loop of
`fill_trajectory_gaps_new`, run `n = max (gap_length - 1) 0` times. -/
def fillLoop (cube : Cube) (time_period : Int) (dlon dlat dx dy : ℚ)
    (nx : Int) : Nat → Storm → Except PyErr Storm
  | 0, s => .ok s
  | n + 1, s =>
    match fillStep cube time_period dlon dlat dx dy nx s with
    | .error e => .error e
    | .ok s2 => fillLoop cube time_period dlon dlat dx dy nx n s2

/-- The scalar-variable inner loop: repeatedly append
`storm[var][-1] + dvar` (`n` times). -/
def appendScalars (col : List AuxVal) (lastv dvar : ℚ) : Nat → List AuxVal
  | 0 => col
  | n + 1 => appendScalars (col ++ [AuxVal.scalar (lastv + dvar)]) (lastv + dvar) dvar n

/-- Processing of one entry of `new_var` in `fill_trajectory_gaps_new`:
a profile (list) variable gets `gap_length - 1` missing-value profiles; a
scalar variable gets linear interpolation with the delta rounded to five
decimal places before accumulation. -/
def varFillOne (gapN : Nat) (gap_length miss_val : ℚ) (s : Storm)
    (nv : String × AuxVal) : Except PyErr Storm :=
  match assocFind s.vars nv.1 with
  | none => .error (.keyError nv.1)
  | some col =>
    match nv.2 with
    | .profile xs =>
      let newcol := col ++ List.replicate gapN (AuxVal.profile (List.replicate xs.length miss_val))
      .ok { s with vars := assocSet s.vars nv.1 newcol }
    | .scalar x =>
      match lastE col with
      | .error e => .error e
      | .ok lastv =>
        match lastv with
        | .profile _ => .error .typeError
        | .scalar xl =>
          match pydivE (x - xl) gap_length with
          | .error e => .error e
          | .ok q =>
            .ok { s with vars := assocSet s.vars nv.1 (appendScalars col xl (pyroundDp 5 q) gapN) }

/-- The `for var in new_var` loop of `fill_trajectory_gaps_new`. -/
def varsFill (gapN : Nat) (gap_length miss_val : ℚ) :
    List (String × AuxVal) → Storm → Except PyErr Storm
  | [], s => .ok s
  | nv :: rest, s =>
    match varFillOne gapN gap_length miss_val s nv with
    | .error e => .error e
    | .ok s2 => varsFill gapN gap_length miss_val rest s2

/-- Embedding of `fill_trajectory_gaps_new(storm, step, lon, lat, i, j, cube, time_period,
new_var, gap, miss_val)`: append `gap - 1` interpolated points to `storm`.
The `step` parameter is unused by the source (its `gap_length = step - ...`
line is commented out in favour of the explicit `gap` argument). -/
def fill_trajectory_gaps_new (storm : Storm) (step : Int) (lon lat : ℚ)
    (i j : Int) (cube : Cube) (time_period : Int)
    (new_var : List (String × AuxVal)) (gap : Int) (miss_val : ℚ) :
    Except PyErr Storm :=
  -- gap_length = gap; nx = cube.shape[-1]; the loops run range(1, gap_length)
  match lastE storm.lon with
  | .error e => .error e
  | .ok lonL =>
  match pymodE ((lon - lonL) + 180) 360 with
  | .error e => .error e
  | .ok m1 =>
  match pydivE (m1 - 180) ((gap : Int) : ℚ) with
  | .error e => .error e
  | .ok dlon =>
  match lastE storm.lat with
  | .error e => .error e
  | .ok latL =>
  match pydivE (lat - latL) ((gap : Int) : ℚ) with
  | .error e => .error e
  | .ok dlat =>
  match lastE storm.i with
  | .error e => .error e
  | .ok iL =>
  match pydivE (((i : Int) : ℚ) - ((iL : Int) : ℚ)) ((gap : Int) : ℚ) with
  | .error e => .error e
  | .ok dx =>
  match lastE storm.j with
  | .error e => .error e
  | .ok jL =>
  match pydivE (((j : Int) : ℚ) - ((jL : Int) : ℚ)) ((gap : Int) : ℚ) with
  | .error e => .error e
  | .ok dy =>
  match fillLoop cube time_period dlon dlat dx dy cube.nx (gap - 1).toNat storm with
  | .error e => .error e
  | .ok s1 => varsFill (gap - 1).toNat ((gap : Int) : ℚ) miss_val new_var s1

/-- Python `str.zfill(w)`: left-pad with zeros to width `w`, keeping a
leading sign in front of the padding. -/
def zfill (w : Nat) (s : String) : String :=
  if w ≤ s.length then s
  else
    match s.data with
    | c :: rest =>
      if c = '-' ∨ c = '+' then
        String.mk (c :: (List.replicate (w - s.length) '0' ++ rest))
      else String.mk (List.replicate (w - s.length) '0' ++ s.data)
    | [] => String.mk (List.replicate w '0')

/-- The date key of one storm point, as `_storm_dates` builds it:
`str(year) + str(month).zfill(2) + str(day).zfill(2) + str(hour).zfill(2)`. -/
def dateKey (y m d h : Int) : String :=
  toString y ++ zfill 2 (toString m) ++ zfill 2 (toString d) ++ zfill 2 (toString h)

/-- Embedding of `_storm_dates(storm)`: the list of date keys for every point of the
storm (indexing `month`/`day`/`hour` at each position of `year`, with
`IndexError` when those arrays are shorter). -/
def storm_dates (s : Storm) : Except PyErr (List String) :=
  (List.range s.year.length).mapM (fun it =>
    match listGetE s.year it with
    | .error e => .error e
    | .ok y =>
    match listGetE s.month it with
    | .error e => .error e
    | .ok m =>
    match listGetE s.day it with
    | .error e => .error e
    | .ok d =>
    match listGetE s.hour it with
    | .error e => .error e
    | .ok h => .ok (dateKey y m d h))

/-- Total variant of `_storm_dates` for specification statements; agrees
with `storm_dates` on storms whose date arrays all have the length of
`year` (see `storm_dates_eq_datesOf`). -/
def datesOf (s : Storm) : List String :=
  (List.range s.year.length).map (fun it =>
    dateKey (s.year.getD it 0) (s.month.getD it 0) (s.day.getD it 0) (s.hour.getD it 0))

/-- The storm's date arrays are consistent: `month`, `day` and `hour` are
exactly as long as `year`. -/
def DatesOK (s : Storm) : Prop :=
  s.month.length = s.year.length ∧ s.day.length = s.year.length ∧
    s.hour.length = s.year.length

/-- Lexicographic strict comparison of character lists by code point
(Python string `<`). -/
def strLtL : List Char → List Char → Bool
  | [], [] => false
  | [], _ :: _ => true
  | _ :: _, [] => false
  | a :: as, b :: bs => if a = b then strLtL as bs else a.toNat < b.toNat

/-- Python string `≤` (used by `sorted`). -/
def strLeB (a b : String) : Bool := ¬ strLtL b.data a.data

/-- Insert into a `strLeB`-sorted list. -/
def insOrd (a : String) : List String → List String
  | [] => [a]
  | b :: rest => if strLeB a b then a :: b :: rest else b :: insOrd a rest

/-- Python `sorted` on a list of strings (insertion sort; the inputs here
are duplicate-free, so stability is irrelevant). -/
def insSort : List String → List String
  | [] => []
  | a :: rest => insOrd a (insSort rest)

/-- Python `list.index`: position of the first occurrence (total; only
evaluated on members, where it matches Python). -/
def idxOf (a : String) : List String → Nat
  | [] => 0
  | b :: rest => if b = a then 0 else idxOf a rest + 1

/-- Python `sorted(list(set(dc).intersection(dp)))`: the sorted list of distinct
date keys shared by the two date lists. -/
def sharedSorted (dc dp : List String) : List String :=
  insSort (dc.dedup.filter (fun d => decide (d ∈ dp)))

/-- Loop of `storms_overlap_in_time` over `storms_y` (the outer `set_x` is
computed once from `storm_x`). -/
def overlapTimeGo (setx : List String) : List Storm → Except PyErr (List Storm)
  | [] => .ok []
  | y :: rest =>
    match storm_dates y with
    | .error e => .error e
    | .ok dy =>
      let overlap := setx.filter (fun d => decide (d ∈ dy.dedup))
      match overlapTimeGo setx rest with
      | .error e => .error e
      | .ok tail => .ok (if 1 ≤ overlap.length then y :: tail else tail)

/-- Embedding of `storms_overlap_in_time(storm_x, storms_y)`: the subset of `storms_y`
sharing at least one date key with `storm_x`, in input order. -/
def storms_overlap_in_time (storm_x : Storm) (storms_y : List Storm) :
    Except PyErr (List Storm) :=
  match storm_dates storm_x with
  | .error e => .error e
  | .ok dx => overlapTimeGo dx.dedup storms_y

/-- The overlap record built by `storm_overlap_in_space` for one matched
pair of storms. -/
structure OverlapRec where
  early : Storm
  late : Storm
  time_c : Nat
  time_p : Nat
  offset : Int
  method : String

deriving instance DecidableEq for OverlapRec

/-- The classification chain of `storm_overlap_in_space`, written on the
quantities it branches on (the `lat` lengths of both storms, the size of
the shared date-key set, and the two first-shared-date indices). -/
def classifyMethod (lenC lenP novr timeC timeP : Nat) : String :=
  if lenC = lenP ∧ lenP = novr then "remove"
  else if timeC = timeP then
    (if lenP ≤ lenC then "remove" else "extend_odd")
  else if timeC < timeP then "extend"
  else "remove"

/-- Loop body of `storm_overlap_in_space` over candidate storms `storms_y`;
`set_c` is `_storm_dates(storm_c)` computed once outside the loop.
`overlap[0]` on an empty shared set raises `IndexError` (the code assumes
temporal overlap was already established). -/
def overlapSpaceGo (storm_c : Storm) (set_c : List String)
    (distance_threshold : ℚ) : List Storm → Except PyErr (Option OverlapRec)
  | [] => .ok none
  | storm_p :: rest =>
    match storm_dates storm_p with
    | .error e => .error e
    | .ok set_p =>
      -- overlap = sorted shared date keys; time_c/time_p = first-occurrence
      -- indices of overlap[0] in each date list
      match listGetE (sharedSorted set_c set_p) 0 with
      | .error e => .error e
      | .ok o0 =>
        match listGetE storm_c.lat (idxOf o0 set_c) with
        | .error e => .error e
        | .ok latc =>
        match listGetE storm_p.lat (idxOf o0 set_p) with
        | .error e => .error e
        | .ok latp =>
        match listGetE storm_c.lon (idxOf o0 set_c) with
        | .error e => .error e
        | .ok lonc =>
        match listGetE storm_p.lon (idxOf o0 set_p) with
        | .error e => .error e
        | .ok lonp =>
          if |latc - latp| < distance_threshold ∧ |lonc - lonp| < distance_threshold then
            .ok (some
              { early := storm_p
                late := storm_c
                time_c := idxOf o0 set_c
                time_p := idxOf o0 set_p
                offset := (idxOf o0 set_p : Int) - (idxOf o0 set_c : Int)
                method := classifyMethod storm_c.lat.length storm_p.lat.length
                  (sharedSorted set_c set_p).length (idxOf o0 set_c) (idxOf o0 set_p) })
          else overlapSpaceGo storm_c set_c distance_threshold rest

/-- Embedding of `storm_overlap_in_space(storm_c, storms_y, distance_threshold)`: first
candidate within the axis-wise degree threshold at the first shared date,
with the overlap classified; `none` when no candidate is close enough. -/
def storm_overlap_in_space (storm_c : Storm) (storms_y : List Storm)
    (distance_threshold : ℚ) : Except PyErr (Option OverlapRec) :=
  match storm_dates storm_c with
  | .error e => .error e
  | .ok set_c => overlapSpaceGo storm_c set_c distance_threshold storms_y

/-- A value stored in a storm dictionary as the track-file merger sees it:
a column of ints, a column of floats, a column of profiles (lists), or the
scalar `length` entry. -/
inductive DVal where
  | ints : List Int → DVal
  | rats : List ℚ → DVal
  | profs : List (List ℚ) → DVal
  | iscalar : Int → DVal

deriving instance DecidableEq for DVal

/-- A storm as a Python dictionary: string keys to per-point columns. This
is the dynamically keyed view used by `write_track_line` and
`remove_duplicates_from_track_files` (missing keys raise `KeyError`). -/
def StormDict : Type := List (String × DVal)

deriving instance DecidableEq for StormDict

/-- Lookup `storm[k]` on a storm dictionary. -/
def dLookupE (d : StormDict) (k : String) : Except PyErr DVal :=
  match assocFind d k with
  | some v => .ok v
  | none => .error (.keyError k)

/-- Lookup `storm[k]` expected to be an int column. -/
def dGetIntsE (d : StormDict) (k : String) : Except PyErr (List Int) :=
  match dLookupE d k with
  | .error e => .error e
  | .ok (.ints l) => .ok l
  | .ok _ => .error .typeError

/-- Lookup `storm[k]` expected numeric (a Python list of ints or floats, read as
floats). -/
def dGetNumsE (d : StormDict) (k : String) : Except PyErr (List ℚ) :=
  match dLookupE d k with
  | .error e => .error e
  | .ok (.ints l) => .ok (l.map (fun n => (n : ℚ)))
  | .ok (.rats l) => .ok l
  | .ok _ => .error .typeError

/-- Lookup `storm["length"]`: the scalar track length. -/
def dGetLenE (d : StormDict) : Except PyErr Int :=
  match dLookupE d "length" with
  | .error e => .error e
  | .ok (.iscalar n) => .ok n
  | .ok _ => .error .typeError

/-- Embedding of `_storm_dates` on the dictionary view of a storm. -/
def stormDatesD (d : StormDict) : Except PyErr (List String) :=
  match dGetIntsE d "year" with
  | .error e => .error e
  | .ok ys =>
  match dGetIntsE d "month" with
  | .error e => .error e
  | .ok ms =>
  match dGetIntsE d "day" with
  | .error e => .error e
  | .ok ds =>
  match dGetIntsE d "hour" with
  | .error e => .error e
  | .ok hs =>
    (List.range ys.length).mapM (fun it =>
      match listGetE ys it with
      | .error e => .error e
      | .ok y =>
      match listGetE ms it with
      | .error e => .error e
      | .ok m =>
      match listGetE ds it with
      | .error e => .error e
      | .ok dd =>
      match listGetE hs it with
      | .error e => .error e
      | .ok h => .ok (dateKey y m dd h))

/-- Left-pad a digit string with zeros to width `w`. -/
def padZeros (w : Nat) (s : String) : String :=
  if w ≤ s.length then s else String.mk (List.replicate (w - s.length) '0' ++ s.data)

/-- The power `10 ^ e` as a rational, for an integer exponent. -/
def qpow10Z (e : Int) : ℚ := if 0 ≤ e then qpow10 e.toNat else 1 / qpow10 (-e).toNat

/-- The decimal exponent of a positive rational: the unique `e` with
`10 ^ e ≤ a < 10 ^ (e + 1)`. -/
def qLog10 (a : ℚ) : Int :=
  let dn := (Nat.toDigits 10 a.num.natAbs).length
  let dd := (Nat.toDigits 10 a.den).length
  let e0 : Int := (dn : Int) - (dd : Int)
  if qpow10Z e0 ≤ a then e0 else e0 - 1

/-- Python `"{:.6f}".format(x)`: fixed-point with six decimals. -/
def format6f (x : ℚ) : String :=
  let n := (pyroundZ (|x| * qpow10 6)).toNat
  (if x < 0 then "-" else "") ++ toString (n / 1000000) ++ "." ++
    padZeros 6 (toString (n % 1000000))

/-- Python `"{:.6e}".format(x)`: scientific notation with six decimals and
a sign-carrying two-digit-minimum exponent. -/
def format6e (x : ℚ) : String :=
  if x = 0 then "0.000000e+00"
  else
    let sgn := if x < 0 then "-" else ""
    let a := |x|
    let e := qLog10 a
    let d0 := pyroundZ (a / qpow10Z e * qpow10 6)
    let d := (if d0 = 10000000 then 1000000 else d0).toNat
    let e2 := if d0 = 10000000 then e + 1 else e
    sgn ++ toString (d / 1000000) ++ "." ++ padZeros 6 (toString (d % 1000000)) ++
      "e" ++ (if e2 < 0 then "-" else "+") ++ padZeros 2 (toString e2.natAbs)

/-- Comma-join of a list of strings (Python `",".join`). -/
def joinComma : List String → String
  | [] => ""
  | [a] => a
  | a :: rest => a ++ "," ++ joinComma rest

/-- The quoted bracketed rendering of a profile variable:
`'"[' + ",".join(...) + ']"'` with `{:.6e}` entries. -/
def profileStr (p : List ℚ) : String :=
  "\"[" ++ joinComma (p.map format6e) ++ "]\""

/-- The header line `track_line_date` of `write_track_line`:
`"start   {}      {}    {}       {}      {}\n"`. -/
def track_line_date_str (new_length y m d h : Int) : String :=
  "start   " ++ toString new_length ++ "      " ++ toString y ++ "    " ++
    toString m ++ "       " ++ toString d ++ "      " ++ toString h ++ "\n"

/-- The point-line leader `track_line_start`:
`"        {}     {}     {}      {}   "` applied to grid indices and the
six-decimal longitude and latitude. -/
def track_line_start_str (gx gy : Int) (lon6 lat6 : String) : String :=
  "        " ++ toString gx ++ "     " ++ toString gy ++ "     " ++ lon6 ++
    "      " ++ lat6 ++ "   "

/-- The point-line trailer `track_line_end`: `"   {}    {}       {}      {} \n"`. -/
def track_line_end_str (y m d h : Int) : String :=
  "   " ++ toString y ++ "    " ++ toString m ++ "       " ++ toString d ++
    "      " ++ toString h ++ " \n"

/-- The `column_ordered` computation: invert the name → column-index mapping (later
duplicate indices overwrite earlier ones, as in `dict(map(reversed, ...))`)
and read names back in index order `0 .. len - 1`. -/
def colOrderedE (column_names : List (String × Int)) : Except PyErr (List String) :=
  let rev := (column_names.map (fun p => (p.2, p.1))).reverse
  (List.range column_names.length).mapM (fun iv =>
    match assocFind rev (iv : Int) with
    | some n => .ok n
    | none => .error (.keyError (toString iv)))

/-- The `line_vars` accumulation of `write_track_line` at point `it` over
the variable columns: profile values render bracketed, scalars as `{:.6e}`. -/
def lineVarsE (storm : StormDict) (it : Nat) : List String → Except PyErr String
  | [] => .ok ""
  | var :: rest =>
    match dLookupE storm var with
    | .error e => .error e
    | .ok (.profs l) =>
      match listGetE l it with
      | .error e => .error e
      | .ok p =>
        match lineVarsE storm it rest with
        | .error e => .error e
        | .ok tail => .ok ("    " ++ profileStr p ++ tail)
    | .ok (.rats l) =>
      match listGetE l it with
      | .error e => .error e
      | .ok v =>
        match lineVarsE storm it rest with
        | .error e => .error e
        | .ok tail => .ok ("    " ++ format6e v ++ tail)
    | .ok (.ints l) =>
      match listGetE l it with
      | .error e => .error e
      | .ok v =>
        match lineVarsE storm it rest with
        | .error e => .error e
        | .ok tail => .ok ("    " ++ format6e (v : ℚ) ++ tail)
    | .ok (.iscalar _) => .error .typeError

/-- One point line of `write_track_line` (loop body for index `it`). -/
def wtlLine (storm : StormDict) (column_ordered : List String) (it : Nat) :
    Except PyErr String :=
  match dGetIntsE storm "grid_x" with
  | .error e => .error e
  | .ok gxs =>
  match listGetE gxs it with
  | .error e => .error e
  | .ok gx =>
  match dGetIntsE storm "grid_y" with
  | .error e => .error e
  | .ok gys =>
  match listGetE gys it with
  | .error e => .error e
  | .ok gy =>
  match dGetNumsE storm "lat" with
  | .error e => .error e
  | .ok lats =>
  match listGetE lats it with
  | .error e => .error e
  | .ok lat =>
  match dGetNumsE storm "lon" with
  | .error e => .error e
  | .ok lons =>
  match listGetE lons it with
  | .error e => .error e
  | .ok lon =>
  match dGetIntsE storm "year" with
  | .error e => .error e
  | .ok ys =>
  match listGetE ys it with
  | .error e => .error e
  | .ok y =>
  match dGetIntsE storm "month" with
  | .error e => .error e
  | .ok ms =>
  match listGetE ms it with
  | .error e => .error e
  | .ok m =>
  match dGetIntsE storm "day" with
  | .error e => .error e
  | .ok ds =>
  match listGetE ds it with
  | .error e => .error e
  | .ok d =>
  match dGetIntsE storm "hour" with
  | .error e => .error e
  | .ok hs =>
  match listGetE hs it with
  | .error e => .error e
  | .ok h =>
    let vcols := (column_ordered.drop 4).take (column_ordered.length - 8)
    match lineVarsE storm it vcols with
    | .error e => .error e
    | .ok lv =>
      .ok (track_line_start_str gx gy (format6f lon) (format6f lat) ++ lv ++
        track_line_end_str y m d h)

/-- The `for it in range(no_lines)` loop of `write_track_line`. -/
def wtlLines (storm : StormDict) (column_ordered : List String) :
    List Nat → Except PyErr (List String)
  | [] => .ok []
  | it :: rest =>
    match wtlLine storm column_ordered it with
    | .error e => .error e
    | .ok l =>
      match wtlLines storm column_ordered rest with
      | .error e => .error e
      | .ok tail => .ok (l :: tail)

/-- Embedding of `write_track_line(storm, no_lines, new_length, column_names)`: the new
header line and the formatted point lines for the first `no_lines` points.
The `logger.debug` call between the header and the loop evaluates its
f-string arguments eagerly, reading `storm["grid_x"]` and `storm["year"]`;
those two reads are kept here because they can raise `KeyError`. -/
def write_track_line (storm : StormDict) (no_lines new_length : Int)
    (column_names : List (String × Int)) : Except PyErr (String × List String) :=
  match dGetIntsE storm "year" with
  | .error e => .error e
  | .ok years =>
  match listGetE years 0 with
  | .error e => .error e
  | .ok y0 =>
  match dGetIntsE storm "month" with
  | .error e => .error e
  | .ok months =>
  match listGetE months 0 with
  | .error e => .error e
  | .ok m0 =>
  match dGetIntsE storm "day" with
  | .error e => .error e
  | .ok days =>
  match listGetE days 0 with
  | .error e => .error e
  | .ok d0 =>
  match dGetIntsE storm "hour" with
  | .error e => .error e
  | .ok hours =>
  match listGetE hours 0 with
  | .error e => .error e
  | .ok h0 =>
  let track_line_date := track_line_date_str new_length y0 m0 d0 h0
  match colOrderedE column_names with
  | .error e => .error e
  | .ok column_ordered =>
  match dLookupE storm "grid_x" with
  | .error e => .error e
  | .ok _ =>
  match dLookupE storm "year" with
  | .error e => .error e
  | .ok _ =>
  match wtlLines storm column_ordered (List.range no_lines.toNat) with
  | .error e => .error e
  | .ok track_lines => .ok (track_line_date, track_lines)

/-- Split a character string into runs delimited by whitespace
(Python `str.split()` with no argument). -/
def splitWsAux : List Char → List Char → List (List Char)
  | [], acc => if acc = [] then [] else [acc.reverse]
  | c :: cs, acc =>
    if c.isWhitespace then
      (if acc = [] then splitWsAux cs [] else acc.reverse :: splitWsAux cs [])
    else splitWsAux cs (c :: acc)

/-- Python `line.split()`. -/
def pySplit (s : String) : List String := (splitWsAux s.data []).map String.mk

/-- Does `pat` occur as a prefix of the list? -/
def startsWithL : List Char → List Char → Bool
  | [], _ => true
  | _ :: _, [] => false
  | a :: as, b :: bs => if a = b then startsWithL as bs else false

/-- Substring containment over character lists (Python `pat in s`). -/
def containsSubL (pat : List Char) : List Char → Bool
  | [] => startsWithL pat []
  | c :: cs => if startsWithL pat (c :: cs) then true else containsSubL pat cs

/-- Python `"start" in line`, the header test of the merger. -/
def containsStart (line : String) : Bool :=
  containsSubL "start".data line.data

/-- Consume leading decimal digits: value, digit count, remainder. -/
def readDigitsAux : List Char → Nat → Nat → Nat × Nat × List Char
  | [], acc, n => (acc, n, [])
  | c :: cs, acc, n =>
    if c.isDigit then readDigitsAux cs (acc * 10 + (c.toNat - 48)) (n + 1)
    else (acc, n, c :: cs)

/-- Python `int(s)` on a whitespace-free token: optional sign then digits. -/
def parseIntL (cs : List Char) : Option Int :=
  let sc : Int × List Char :=
    match cs with
    | '-' :: r => (-1, r)
    | '+' :: r => (1, r)
    | _ => (1, cs)
  let v := readDigitsAux sc.2 0 0
  if v.2.1 = 0 then none
  else if v.2.2 = [] then some (sc.1 * (v.1 : Int)) else none

/-- Python `int(...)`: raises `ValueError` when the token is not an integer literal. -/
def pyToIntE (s : String) : Except PyErr Int :=
  match parseIntL s.data with
  | some n => .ok n
  | none => .error .valueError

/-- Python `float(s)` on a decimal token: sign, integer part, optional
fraction, optional exponent (exact rational value; `inf`/`nan` spellings are
out of scope for these track files). -/
def parseFloatL (cs : List Char) : Option ℚ :=
  let sc : ℚ × List Char :=
    match cs with
    | '-' :: r => (-1, r)
    | '+' :: r => (1, r)
    | _ => (1, cs)
  let ipp := readDigitsAux sc.2 0 0
  let fpp : Nat × Nat × List Char :=
    match ipp.2.2 with
    | '.' :: r => readDigitsAux r 0 0
    | other => (0, 0, other)
  if ipp.2.1 + fpp.2.1 = 0 then none
  else
    let mant : ℚ := (ipp.1 : ℚ) + (fpp.1 : ℚ) / qpow10 fpp.2.1
    match fpp.2.2 with
    | [] => some (sc.1 * mant)
    | e :: r =>
      if e = 'e' ∨ e = 'E' then
        let esc : Int × List Char :=
          match r with
          | '-' :: rr => (-1, rr)
          | '+' :: rr => (1, rr)
          | _ => (1, r)
        let ev := readDigitsAux esc.2 0 0
        if ev.2.1 = 0 then none
        else if ev.2.2 = [] then some (sc.1 * mant * qpow10Z (esc.1 * (ev.1 : Int)))
        else none
      else none

/-- Python `float(...)`: raises `ValueError` on malformed tokens. -/
def parseFloatE (s : String) : Except PyErr ℚ :=
  match parseFloatL s.data with
  | some q => .ok q
  | none => .error .valueError

/-- Header parsing of the merger: `track_length = int(line_array[1])` and
`start_date = line_array[2] + line_array[3].zfill(2) + line_array[4].zfill(2)
+ line_array[5].zfill(2)`. -/
def headerInfoE (la : List String) : Except PyErr (Int × String) :=
  match listGetE la 1 with
  | .error e => .error e
  | .ok s1 =>
  match pyToIntE s1 with
  | .error e => .error e
  | .ok tl =>
  match listGetE la 2 with
  | .error e => .error e
  | .ok a2 =>
  match listGetE la 3 with
  | .error e => .error e
  | .ok a3 =>
  match listGetE la 4 with
  | .error e => .error e
  | .ok a4 =>
  match listGetE la 5 with
  | .error e => .error e
  | .ok a5 => .ok (tl, a2 ++ zfill 2 a3 ++ zfill 2 a4 ++ zfill 2 a5)

/-- Point-line parsing of the merger: `lon = float(line_array[2])`,
`lat = float(line_array[3])`. -/
def pointLLE (la : List String) : Except PyErr (ℚ × ℚ) :=
  match listGetE la 2 with
  | .error e => .error e
  | .ok a2 =>
  match parseFloatE a2 with
  | .error e => .error e
  | .ok lon =>
  match listGetE la 3 with
  | .error e => .error e
  | .ok a3 =>
  match parseFloatE a3 with
  | .error e => .error e
  | .ok lat => .ok (lon, lat)

/-- An entry of `storms_match` as consumed by the merger: the dictionary
built by `storm_overlap_in_space`, with the two storms in dictionary form. -/
structure OverlapD where
  early : StormDict
  late : StormDict
  time_c : Int
  time_p : Int
  offset : Int
  method : String

deriving instance DecidableEq for OverlapD

/-- The previous-file matching loop (first pass of the merger, at the first
point line of a block): does any `storms_match` entry's `early` storm match
this block's start date, length and first position? Later iterations keep a
`True` once set, exactly like the Python flag. -/
def findEarlyMatch (sd : String) (tl : Int) (lon lat : ℚ) :
    List OverlapD → Bool → Except PyErr Bool
  | [], acc => .ok acc
  | r :: rest, acc =>
    match stormDatesD r.early with
    | .error e => .error e
    | .ok dts =>
    match listGetE dts 0 with
    | .error e => .error e
    | .ok date =>
    match dGetLenE r.early with
    | .error e => .error e
    | .ok len =>
      if date = sd ∧ tl = len then
        match dGetNumsE r.early "lon" with
        | .error e => .error e
        | .ok lons =>
        match listGetE lons 0 with
        | .error e => .error e
        | .ok l0 =>
          if lon = l0 then
            match dGetNumsE r.early "lat" with
            | .error e => .error e
            | .ok lats =>
            match listGetE lats 0 with
            | .error e => .error e
            | .ok a0 =>
              if lat = a0 then findEarlyMatch sd tl lon lat rest true
              else findEarlyMatch sd tl lon lat rest acc
          else findEarlyMatch sd tl lon lat rest acc
      else findEarlyMatch sd tl lon lat rest acc

/-- The current-file matching loop (second pass, at the first point line of
a block): the last `storms_match` entry whose `late` storm matches this
block gives `(match_type, storm_old_match, match_offset)`. -/
def findLateMatch (sd : String) (tl : Int) (lon lat : ℚ) :
    List OverlapD → Option (String × StormDict × Int) →
    Except PyErr (Option (String × StormDict × Int))
  | [], acc => .ok acc
  | r :: rest, acc =>
    match stormDatesD r.late with
    | .error e => .error e
    | .ok dts =>
    match listGetE dts 0 with
    | .error e => .error e
    | .ok date =>
    match dGetLenE r.late with
    | .error e => .error e
    | .ok len =>
      if date = sd ∧ tl = len then
        match dGetNumsE r.late "lon" with
        | .error e => .error e
        | .ok lons =>
        match listGetE lons 0 with
        | .error e => .error e
        | .ok l0 =>
          if lon = l0 then
            match dGetNumsE r.late "lat" with
            | .error e => .error e
            | .ok lats =>
            match listGetE lats 0 with
            | .error e => .error e
            | .ok a0 =>
              if lat = a0 then
                findLateMatch sd tl lon lat rest (some (r.method, r.early, r.offset))
              else findLateMatch sd tl lon lat rest acc
          else findLateMatch sd tl lon lat rest acc
      else findLateMatch sd tl lon lat rest acc

/-- The per-block loop state of both merger passes (`line_of_traj`,
`track_length`, `matching_track`, `line_header`, `start_date`); `none`
models the state before any header line (where reading `line_of_traj`
would raise `NameError`). -/
structure MergeSt where
  lineOfTraj : Nat
  trackLength : Int
  matchingTrack : Bool
  lineHeader : String
  startDate : String

deriving instance DecidableEq for MergeSt

/-- One line of the previous-file pass. Returns the updated state and the
lines written to the output file for this input line. -/
def processPrevLine (sm : List OverlapD) (st : Option MergeSt) (line : String) :
    Except PyErr (Option MergeSt × List String) :=
  let la := pySplit line
  if containsStart line then
    match headerInfoE la with
    | .error e => .error e
    | .ok tlsd => .ok (some ⟨0, tlsd.1, false, line, tlsd.2⟩, [])
  else
    match st with
    | none => .error .nameError
    | some s =>
      if (s.lineOfTraj : Int) ≤ s.trackLength then
        match pointLLE la with
        | .error e => .error e
        | .ok ll =>
          if s.lineOfTraj = 0 then
            match findEarlyMatch s.startDate s.trackLength ll.1 ll.2 sm false with
            | .error e => .error e
            | .ok mt =>
              if mt then
                .ok (some ⟨1, s.trackLength, true, s.lineHeader, s.startDate⟩, [])
              else
                .ok (some ⟨1, s.trackLength, false, s.lineHeader, s.startDate⟩,
                  [s.lineHeader, line])
          else
            .ok (some ⟨s.lineOfTraj + 1, s.trackLength, s.matchingTrack,
              s.lineHeader, s.startDate⟩,
              if s.matchingTrack then [] else [line])
      else .ok (some s, [])

/-- One line of the current-file pass. -/
def processCurrLine (sm : List OverlapD) (cols : List (String × Int))
    (st : Option MergeSt) (line : String) :
    Except PyErr (Option MergeSt × List String) :=
  let la := pySplit line
  if containsStart line then
    match headerInfoE la with
    | .error e => .error e
    | .ok tlsd => .ok (some ⟨0, tlsd.1, false, line, tlsd.2⟩, [])
  else
    match st with
    | none => .error .nameError
    | some s =>
      if (s.lineOfTraj : Int) ≤ s.trackLength then
        match pointLLE la with
        | .error e => .error e
        | .ok ll =>
          if s.lineOfTraj = 0 then
            match findLateMatch s.startDate s.trackLength ll.1 ll.2 sm none with
            | .error e => .error e
            | .ok none =>
              .ok (some ⟨1, s.trackLength, false, s.lineHeader, s.startDate⟩,
                [s.lineHeader, line])
            | .ok (some mi) =>
              if mi.1 = "extend" then
                let new_length := s.trackLength + mi.2.2
                match write_track_line mi.2.1 mi.2.2 new_length cols with
                | .error e => .error e
                | .ok nhl =>
                  .ok (some ⟨1, s.trackLength, true, nhl.1, s.startDate⟩,
                    nhl.1 :: (nhl.2 ++ [line]))
              else
                .ok (some ⟨1, s.trackLength, true, s.lineHeader, s.startDate⟩,
                  [s.lineHeader, line])
          else
            .ok (some ⟨s.lineOfTraj + 1, s.trackLength, s.matchingTrack,
              s.lineHeader, s.startDate⟩, [line])
      else .ok (some s, [])

/-- Fold the previous-file pass over the file's lines, concatenating the
written output lines. -/
def runPrev (sm : List OverlapD) :
    Option MergeSt → List String → Except PyErr (Option MergeSt × List String)
  | st, [] => .ok (st, [])
  | st, l :: ls =>
    match processPrevLine sm st l with
    | .error e => .error e
    | .ok so =>
      match runPrev sm so.1 ls with
      | .error e => .error e
      | .ok sf => .ok (sf.1, so.2 ++ sf.2)

/-- Fold the current-file pass over the file's lines. -/
def runCurr (sm : List OverlapD) (cols : List (String × Int)) :
    Option MergeSt → List String → Except PyErr (Option MergeSt × List String)
  | st, [] => .ok (st, [])
  | st, l :: ls =>
    match processCurrLine sm cols st l with
    | .error e => .error e
    | .ok so =>
      match runCurr sm cols so.1 ls with
      | .error e => .error e
      | .ok sf => .ok (sf.1, so.2 ++ sf.2)

/-- Embedding of `remove_duplicates_from_track_files(tracked_file_Tm1, tracked_file_T,
tracked_file_Tm1_adjust, tracked_file_T_adjust, storms_match, column_names)`,
with the four file paths replaced by file contents: the result holds the
content written to the previous-window output file, and the content of the
current-window output file — `none` when that file is never created (the
function returns right after `copyfile` when `storms_match` is empty). -/
def remove_duplicates_from_track_files (prevLines currLines : List String)
    (storms_match : List OverlapD) (column_names : List (String × Int)) :
    Except PyErr (List String × Option (List String)) :=
  if storms_match.length = 0 then .ok (prevLines, none)
  else
    match runPrev storms_match none prevLines with
    | .error e => .error e
    | .ok pr =>
      match runCurr storms_match column_names none currLines with
      | .error e => .error e
      | .ok cr => .ok (pr.2, some cr.2)

/-- Iterated application of `f`, collecting the `n` successive values
`f v, f (f v), ...` (the shape of every per-field append loop of the gap
filler). -/
def iterAppend {α : Type} (f : α → α) (v : α) : Nat → List α
  | 0 => []
  | n + 1 => f v :: iterAppend f (f v) n

/-- Boolean check that an integer list increases by exactly one at every
adjacent pair (contiguous, strictly increasing, no duplicates or skips). -/
def contigB : List Int → Bool
  | [] => true
  | [_] => true
  | a :: b :: rest => if b = a + 1 then contigB (b :: rest) else false

/-- Well-formedness of one `new_var` entry against a storm, as needed for
the variable loop of the gap filler to run: the key exists, and for a
scalar variable the stored column ends in a scalar. -/
def VarOK (s : Storm) (nv : String × AuxVal) : Prop :=
  ∃ col, assocFind s.vars nv.1 = some col ∧
    (match nv.2 with
     | .profile _ => True
     | .scalar _ => ∃ q, col.getLast? = some (AuxVal.scalar q))

/-- Well-formedness of a storm for the spatial-overlap detector: consistent
date arrays and `lat`/`lon` arrays as long as `year`. -/
def WFo (s : Storm) : Prop :=
  DatesOK s ∧ s.lat.length = s.year.length ∧ s.lon.length = s.year.length

/-- Specification-side mirror of the per-candidate distance test of
`storm_overlap_in_space`: axis-wise absolute differences at the first
shared date key, each compared with the threshold. -/
def passB (storm_c storm_p : Storm) (θ : ℚ) : Bool :=
  let dc := datesOf storm_c
  let dp := datesOf storm_p
  let o0 := (sharedSorted dc dp).headD ""
  let tc := idxOf o0 dc
  let tp := idxOf o0 dp
  decide (|storm_c.lat.getD tc 0 - storm_p.lat.getD tp 0| < θ ∧
    |storm_c.lon.getD tc 0 - storm_p.lon.getD tp 0| < θ)

/-- Specification-side mirror of the overlap record built for an accepted
candidate. -/
def mkRecT (storm_c storm_p : Storm) : OverlapRec :=
  let dc := datesOf storm_c
  let dp := datesOf storm_p
  let ov := sharedSorted dc dp
  let o0 := ov.headD ""
  let tc := idxOf o0 dc
  let tp := idxOf o0 dp
  { early := storm_p
    late := storm_c
    time_c := tc
    time_p := tp
    offset := (tp : Int) - (tc : Int)
    method := classifyMethod storm_c.lat.length storm_p.lat.length ov.length tc tp }

/-- Two storms share at least one date key. -/
def sharesB (x y : Storm) : Bool :=
  decide (∃ d, d ∈ datesOf x ∧ d ∈ datesOf y)

/-- A concrete cube: Gregorian calendar, grid width 100. -/
def cubeW : Cube := ⟨"gregorian", 100⟩

/-- A one-point storm used as concrete input to the gap filler. -/
def stormW : Storm :=
  ⟨[1], [359.5], [10], [5], [6], [7], [2000], [1], [1], [0],
   [("psl", [AuxVal.scalar 100000])]⟩

/-- A one-point storm whose longitude sits less than `5e-7` below 360. -/
def storm360 : Storm :=
  ⟨[1], [3599999996/10000000], [0], [5], [6], [7], [2000], [1], [1], [0], []⟩

/-- A one-point storm with a sub-microdegree latitude, exhibiting the
rounding order of the gap filler. -/
def stormRnd : Storm :=
  ⟨[1], [0], [6/10000000], [5], [6], [7], [2000], [1], [1], [0],
   [("psl", [AuxVal.scalar 100000])]⟩

/-- Previous-window storm: four points from 1999-12-31 18:00 to
2000-01-01 12:00, drifting 0.1 degrees per step. -/
def stormPW : Storm :=
  ⟨[1, 2, 3, 4], [10, 101/10, 102/10, 103/10], [20, 201/10, 202/10, 203/10],
   [1, 1, 1, 1], [2, 2, 2, 2], [0, 0, 0, 0],
   [1999, 2000, 2000, 2000], [12, 1, 1, 1], [31, 1, 1, 1], [18, 0, 6, 12], []⟩

/-- Current-window storm: three points starting at 2000-01-01 12:00, the
first coinciding with the last point of `stormPW`. -/
def stormCW : Storm :=
  ⟨[1, 2, 3], [103/10, 104/10, 105/10], [203/10, 204/10, 205/10],
   [1, 1, 1], [2, 2, 2], [0, 0, 0],
   [2000, 2000, 2000], [1, 1, 1], [1, 1, 1], [12, 18, 24], []⟩

/-- The storm `stormPW` in dictionary form, as the merger reads overlap records. -/
def earlyDW : StormDict :=
  [("grid_x", .ints [1, 1, 1, 1]), ("grid_y", .ints [2, 2, 2, 2]),
   ("lon", .rats [10, 101/10, 102/10, 103/10]),
   ("lat", .rats [20, 201/10, 202/10, 203/10]),
   ("year", .ints [1999, 2000, 2000, 2000]), ("month", .ints [12, 1, 1, 1]),
   ("day", .ints [31, 1, 1, 1]), ("hour", .ints [18, 0, 6, 12]),
   ("length", .iscalar 4)]

/-- The storm `stormCW` in dictionary form. -/
def lateDW : StormDict :=
  [("grid_x", .ints [1, 1, 1]), ("grid_y", .ints [2, 2, 2]),
   ("lon", .rats [103/10, 104/10, 105/10]),
   ("lat", .rats [203/10, 204/10, 205/10]),
   ("year", .ints [2000, 2000, 2000]), ("month", .ints [1, 1, 1]),
   ("day", .ints [1, 1, 1]), ("hour", .ints [12, 18, 24]),
   ("length", .iscalar 3)]

/-- The overlap record matching `lateDW` against `earlyDW`: an `extend`
with offset 3. -/
def recDW : OverlapD := ⟨earlyDW, lateDW, 0, 3, 3, "extend"⟩

/-- A `column_names` mapping with the four leading position columns and the
four trailing date columns and no variable columns. -/
def colsW : List (String × Int) :=
  [("grid_x", 0), ("grid_y", 1), ("lon", 2), ("lat", 3),
   ("year", 4), ("month", 5), ("day", 6), ("hour", 7)]

/-- The current-window track file block for `stormCW`. -/
def currFileW : List String :=
  ["start   3      2000    1       1      12\n",
   "        1     2     10.300000      20.300000      2000    1       1      12 \n",
   "        1     2     10.400000      20.400000      2000    1       1      18 \n",
   "        1     2     10.500000      20.500000      2000    1       1      24 \n"]

/-- A storm dictionary in the `i`/`j` key form produced by
`fill_trajectory_gaps_new` and consumed by `save_trajectories_netcdf`,
with no `grid_x`/`grid_y` keys. -/
def stormIJW : StormDict :=
  [("i", .ints [5]), ("j", .ints [6]), ("lon", .rats [103/10]),
   ("lat", .rats [203/10]), ("year", .ints [2000]), ("month", .ints [1]),
   ("day", .ints [1]), ("hour", .ints [12]), ("step", .ints [1]),
   ("track_id", .ints [0]), ("length", .iscalar 1)]

/-! ### General lemmas about the Python-semantics primitives -/

theorem pymodE_ne {a b : ℚ} (hb : b ≠ 0) : pymodE a b = .ok (pymodQ a b) := by
  simp [pymodE, pymodQ, hb]

theorem pydivE_ne {a b : ℚ} (hb : b ≠ 0) : pydivE a b = .ok (a / b) := by
  simp [pydivE, hb]

theorem pydivE_zero (a : ℚ) : pydivE a 0 = .error .zeroDivision := by
  simp [pydivE]

theorem pymodQ_nonneg {a b : ℚ} (hb : 0 < b) : 0 ≤ pymodQ a b := by
  have h1 : (⌊a / b⌋ : ℚ) ≤ a / b := Int.floor_le _
  have h2 : b * (⌊a / b⌋ : ℚ) ≤ b * (a / b) :=
    mul_le_mul_of_nonneg_left h1 (le_of_lt hb)
  have h3 : b * (a / b) = a := by field_simp
  unfold pymodQ
  linarith

theorem pymodQ_lt {a b : ℚ} (hb : 0 < b) : pymodQ a b < b := by
  have h1 : a / b < (⌊a / b⌋ : ℚ) + 1 := Int.lt_floor_add_one _
  have h2 : b * (a / b) < b * ((⌊a / b⌋ : ℚ) + 1) := (mul_lt_mul_left hb).2 h1
  have h3 : b * (a / b) = a := by field_simp
  unfold pymodQ
  nlinarith

theorem pyroundZ_le (x : ℚ) : (pyroundZ x : ℚ) ≤ x + 1/2 := by
  have hf : (⌊x⌋ : ℚ) ≤ x := Int.floor_le x
  unfold pyroundZ
  split_ifs with h1 h2 h3 <;> push_cast <;> linarith

theorem le_pyroundZ (x : ℚ) : x - 1/2 ≤ (pyroundZ x : ℚ) := by
  have hf : x < (⌊x⌋ : ℚ) + 1 := Int.lt_floor_add_one x
  unfold pyroundZ
  split_ifs with h1 h2 h3 <;> push_cast <;> linarith

theorem pyroundDp6_bound {x : ℚ} (h0 : 0 ≤ x) (h1 : x < 360) :
    0 ≤ pyroundDp 6 x ∧ pyroundDp 6 x ≤ 360 := by
  have hq : qpow10 6 = (1000000 : ℚ) := by norm_num [qpow10]
  unfold pyroundDp
  rw [hq]
  have hle := pyroundZ_le (x * 1000000)
  have hge := le_pyroundZ (x * 1000000)
  have hn0 : (0 : ℤ) ≤ pyroundZ (x * 1000000) := by
    by_contra hc
    push_neg at hc
    have h2 : pyroundZ (x * 1000000) ≤ -1 := by omega
    have h3 : ((pyroundZ (x * 1000000) : ℤ) : ℚ) ≤ -1 := by exact_mod_cast h2
    nlinarith
  have hn1 : pyroundZ (x * 1000000) ≤ 360000000 := by
    by_contra hc
    push_neg at hc
    have h2 : (360000001 : ℤ) ≤ pyroundZ (x * 1000000) := by omega
    have h3 : ((360000001 : ℤ) : ℚ) ≤ ((pyroundZ (x * 1000000) : ℤ) : ℚ) := by
      exact_mod_cast h2
    push_cast at h3
    nlinarith
  constructor
  · apply div_nonneg _ (by norm_num)
    exact_mod_cast hn0
  · rw [div_le_iff₀ (by norm_num)]
    have h4 : ((pyroundZ (x * 1000000) : ℤ) : ℚ) ≤ ((360000000 : ℤ) : ℚ) := by
      exact_mod_cast hn1
    push_cast at h4
    linarith

theorem listGetE_lt {α : Type} {l : List α} {k : Nat} (h : k < l.length) (d : α) :
    listGetE l k = .ok (l.getD k d) := by
  unfold listGetE
  cases hg : l.get? k with
  | none =>
    rw [List.get?_eq_none] at hg
    omega
  | some a =>
    rw [List.getD_eq_get?, hg]
    rfl

theorem listGetE_zero_headD {α : Type} {l : List α} {a : α} (d : α)
    (h : listGetE l 0 = .ok a) : l.headD d = a := by
  cases l with
  | nil => simp [listGetE] at h
  | cons b t =>
    simp [listGetE] at h
    simp [h]

theorem lastE_append_one {α : Type} (l : List α) (a : α) :
    lastE (l ++ [a]) = .ok a := by
  simp [lastE, List.getLast?_concat]

theorem lastE_of_getLast {α : Type} {l : List α} {a : α}
    (h : l.getLast? = some a) : lastE l = .ok a := by
  simp [lastE, h]

theorem mapM_ok {α β : Type} (f : α → Except PyErr β) (g : α → β) :
    ∀ l : List α, (∀ a ∈ l, f a = .ok (g a)) → l.mapM f = .ok (l.map g) := by
  intro l
  induction l with
  | nil => intro _; rfl
  | cons a t ih =>
    intro h
    rw [List.mapM_cons, h a (List.mem_cons_self a t),
      ih (fun b hb => h b (List.mem_cons_of_mem a hb))]
    rfl

theorem assocSet_self {α β : Type} [DecidableEq α] :
    ∀ (vs : List (α × β)) (k : α) (v : β),
      assocFind vs k = some v → assocSet vs k v = vs := by
  intro vs
  induction vs with
  | nil => intro k v h; simp [assocFind] at h
  | cons p rest ih =>
    obtain ⟨n, w⟩ := p
    intro k v h
    by_cases heq : n = k
    · subst heq
      simp [assocFind] at h
      subst h
      simp [assocSet]
    · simp only [assocFind, if_neg heq] at h
      simp only [assocSet, if_neg heq]
      rw [ih _ _ h]

theorem assocFind_assocSet {α β : Type} [DecidableEq α] :
    ∀ (vs : List (α × β)) (k : α) (v w : β),
      assocFind vs k = some w → assocFind (assocSet vs k v) k = some v := by
  intro vs
  induction vs with
  | nil => intro k v w h; simp [assocFind] at h
  | cons p rest ih =>
    obtain ⟨n, w2⟩ := p
    intro k v w h
    by_cases heq : n = k
    · subst heq
      simp [assocSet, assocFind]
    · simp only [assocFind, if_neg heq] at h
      simp only [assocSet, if_neg heq, assocFind]
      exact ih _ _ _ h

theorem iterAppend_succ {α : Type} (f : α → α) (v : α) (m : Nat) :
    iterAppend f v (m + 1) = f v :: iterAppend f (f v) m := rfl

/-! ### Gap-filler structure lemmas -/

theorem fillStep_ok {cube : Cube} {tp : Int} {dlon dlat dx dy : ℚ} {nx : Int}
    {s t : Storm} (h : fillStep cube tp dlon dlat dx dy nx s = .ok t) :
    ∃ lonL latL stepL, lastE s.lon = .ok lonL ∧ lastE s.lat = .ok latL ∧
      lastE s.step = .ok stepL ∧
      t.lon = s.lon ++ [pyroundDp 6 (pymodQ (lonL + dlon) 360)] ∧
      t.lat = s.lat ++ [pyroundDp 6 (latL + dlat)] ∧
      t.step = s.step ++ [stepL + 1] ∧
      t.vars = s.vars := by
  unfold fillStep at h
  split at h
  · cases h
  rename_i lonL hlon
  split at h
  · cases h
  rename_i lonm hmod
  rw [pymodE_ne (by norm_num)] at hmod
  injection hmod with hmod
  split at h
  · cases h
  rename_i latL hlat
  split at h
  · cases h
  rename_i iL hi
  split at h
  · cases h
  rename_i xm hxm
  split at h
  · cases h
  rename_i jL hj
  split at h
  · cases h
  rename_i stepL hstep
  split at h
  · cases h
  rename_i tidL htid
  split at h
  · cases h
  rename_i yL hy
  split at h
  · cases h
  rename_i mL hm
  split at h
  · cases h
  rename_i dL hd
  split at h
  · cases h
  rename_i hL hh
  split at h
  · cases h
  rename_i tc htc
  injection h with h
  subst h
  exact ⟨lonL, latL, stepL, hlon, hlat, hstep, by simp [hmod], by simp, by simp, by simp⟩

theorem fillLoop_spec {cube : Cube} {tp : Int} {dlon dlat dx dy : ℚ} {nx : Int} :
    ∀ (n : Nat) (s t : Storm), fillLoop cube tp dlon dlat dx dy nx n s = .ok t →
    (∀ la, lastE s.lat = .ok la →
        t.lat = s.lat ++ iterAppend (fun v => pyroundDp 6 (v + dlat)) la n) ∧
    (∀ lo, lastE s.lon = .ok lo →
        t.lon = s.lon ++ iterAppend (fun v => pyroundDp 6 (pymodQ (v + dlon) 360)) lo n) ∧
    (∀ st, lastE s.step = .ok st →
        t.step = s.step ++ iterAppend (fun v => v + 1) st n) ∧
    t.vars = s.vars := by
  intro n
  induction n with
  | zero =>
    intro s t h
    injection h with h
    subst h
    simp [iterAppend]
  | succ m ih =>
    intro s t h
    unfold fillLoop at h
    split at h
    · cases h
    rename_i s2 hs2
    obtain ⟨lonL, latL, stepL, hlon, hlat, hstep, hl2, hl3, hl4, hv⟩ := fillStep_ok hs2
    obtain ⟨ih1, ih2, ih3, ih4⟩ := ih s2 t h
    refine ⟨?_, ?_, ?_, ?_⟩
    · intro la hla
      rw [hla] at hlat
      injection hlat with e
      subst e
      have h5 : lastE s2.lat = .ok (pyroundDp 6 (la + dlat)) := by
        rw [hl3]; exact lastE_append_one _ _
      rw [ih1 _ h5, hl3, iterAppend_succ]
      simp [List.append_assoc]
    · intro lo hlo
      rw [hlo] at hlon
      injection hlon with e
      subst e
      have h5 : lastE s2.lon = .ok (pyroundDp 6 (pymodQ (lo + dlon) 360)) := by
        rw [hl2]; exact lastE_append_one _ _
      rw [ih2 _ h5, hl2, iterAppend_succ]
      simp [List.append_assoc]
    · intro st hst
      rw [hst] at hstep
      injection hstep with e
      subst e
      have h5 : lastE s2.step = .ok (st + 1) := by
        rw [hl4]; exact lastE_append_one _ _
      rw [ih3 _ h5, hl4, iterAppend_succ]
      simp [List.append_assoc]
    · rw [ih4, hv]

theorem varFillOne_fields {gapN : Nat} {gapq mv : ℚ} {s : Storm}
    {nv : String × AuxVal} {t : Storm}
    (h : varFillOne gapN gapq mv s nv = .ok t) :
    t.lat = s.lat ∧ t.lon = s.lon ∧ t.step = s.step := by
  unfold varFillOne at h
  split at h
  · cases h
  rename_i col hcol
  split at h
  · injection h with h
    subst h
    exact ⟨rfl, rfl, rfl⟩
  · split at h
    · cases h
    rename_i lastv hlast
    split at h
    · cases h
    rename_i xl
    split at h
    · cases h
    rename_i q hq
    injection h with h
    subst h
    exact ⟨rfl, rfl, rfl⟩

theorem varsFill_fields {gapN : Nat} {gapq mv : ℚ} :
    ∀ (nvs : List (String × AuxVal)) (s t : Storm),
      varsFill gapN gapq mv nvs s = .ok t →
      t.lat = s.lat ∧ t.lon = s.lon ∧ t.step = s.step := by
  intro nvs
  induction nvs with
  | nil =>
    intro s t h
    injection h with h
    subst h
    exact ⟨rfl, rfl, rfl⟩
  | cons nv rest ih =>
    intro s t h
    unfold varsFill at h
    split at h
    · cases h
    rename_i s2 hs2
    obtain ⟨h1, h2, h3⟩ := varFillOne_fields hs2
    obtain ⟨h4, h5, h6⟩ := ih s2 t h
    exact ⟨h4.trans h1, h5.trans h2, h6.trans h3⟩

theorem iterAppend_lon_bound (dlon : ℚ) :
    ∀ (n : Nat) (v q : ℚ),
      q ∈ iterAppend (fun w => pyroundDp 6 (pymodQ (w + dlon) 360)) v n →
      0 ≤ q ∧ q ≤ 360 := by
  intro n
  induction n with
  | zero =>
    intro v q hq
    simp [iterAppend] at hq
  | succ m ih =>
    intro v q hq
    rw [iterAppend_succ] at hq
    rcases List.mem_cons.1 hq with h | h
    · subst h
      exact pyroundDp6_bound (pymodQ_nonneg (by norm_num)) (pymodQ_lt (by norm_num))
    · exact ih _ _ h

theorem appendScalars_eq :
    ∀ (n : Nat) (col : List AuxVal) (v d : ℚ),
      appendScalars col v d n =
        col ++ (iterAppend (fun w => w + d) v n).map AuxVal.scalar := by
  intro n
  induction n with
  | zero => intro col v d; simp [appendScalars, iterAppend]
  | succ m ih =>
    intro col v d
    show appendScalars (col ++ [AuxVal.scalar (v + d)]) (v + d) d m = _
    rw [ih, iterAppend_succ]
    simp [List.append_assoc]

theorem contigB_snoc :
    ∀ (l : List Int) (v : Int), contigB l = true → l.getLast? = some v →
      contigB (l ++ [v + 1]) = true := by
  intro l
  induction l with
  | nil =>
    intro v h hl
    simp at hl
  | cons a t ih =>
    intro v h hl
    cases t with
    | nil =>
      simp at hl
      subst hl
      simp [contigB]
    | cons b t2 =>
      rw [List.getLast?_cons_cons] at hl
      have h2 : b = a + 1 ∧ contigB (b :: t2) = true := by
        by_cases hb : b = a + 1
        · refine ⟨hb, ?_⟩
          unfold contigB at h
          rwa [if_pos hb] at h
        · unfold contigB at h
          rw [if_neg hb] at h
          cases h
      have h3 := ih v h2.2 hl
      show contigB (a :: b :: (t2 ++ [v + 1])) = true
      unfold contigB
      rw [if_pos h2.1]
      exact h3

theorem contigB_iter :
    ∀ (n : Nat) (l : List Int) (v : Int), contigB l = true → l.getLast? = some v →
      contigB (l ++ iterAppend (fun w => w + 1) v n) = true ∧
      (l ++ iterAppend (fun w => w + 1) v n).getLast? = some (v + n) := by
  intro n
  induction n with
  | zero =>
    intro l v h hl
    simp [iterAppend, h, hl]
  | succ m ih =>
    intro l v h hl
    have h1 := contigB_snoc l v h hl
    have h2 : (l ++ [v + 1]).getLast? = some (v + 1) := List.getLast?_concat _
    obtain ⟨h3, h4⟩ := ih (l ++ [v + 1]) (v + 1) h1 h2
    rw [iterAppend_succ]
    have hre : l ++ ((v + 1) :: iterAppend (fun w => w + 1) (v + 1) m) =
        (l ++ [v + 1]) ++ iterAppend (fun w => w + 1) (v + 1) m := by
      simp [List.append_assoc]
    constructor
    · rw [hre]; exact h3
    · rw [hre, h4]
      congr 1
      push_cast
      ring

theorem fill_new_ok {storm : Storm} {step : Int} {lon lat : ℚ} {i j : Int}
    {cube : Cube} {tp : Int} {new_var : List (String × AuxVal)} {gap : Int}
    {mv : ℚ} {s' : Storm}
    (h : fill_trajectory_gaps_new storm step lon lat i j cube tp new_var gap mv = .ok s') :
    ((gap : Int) : ℚ) ≠ 0 ∧
    ∃ lonL latL iL jL s1,
      lastE storm.lon = .ok lonL ∧ lastE storm.lat = .ok latL ∧
      lastE storm.i = .ok iL ∧ lastE storm.j = .ok jL ∧
      fillLoop cube tp ((pymodQ ((lon - lonL) + 180) 360 - 180) / ((gap : Int) : ℚ))
        ((lat - latL) / ((gap : Int) : ℚ)) (((i : Int) - (iL : Int)) / ((gap : Int) : ℚ))
        (((j : Int) - (jL : Int)) / ((gap : Int) : ℚ)) cube.nx (gap - 1).toNat storm = .ok s1 ∧
      varsFill (gap - 1).toNat ((gap : Int) : ℚ) mv new_var s1 = .ok s' := by
  unfold fill_trajectory_gaps_new at h
  split at h
  · cases h
  rename_i lonL hlon
  split at h
  · cases h
  rename_i m1 hm1
  rw [pymodE_ne (by norm_num)] at hm1
  injection hm1 with hm1
  split at h
  · cases h
  rename_i dlon hdlon
  have hg : ((gap : Int) : ℚ) ≠ 0 := by
    intro hc
    rw [hc, pydivE_zero] at hdlon
    cases hdlon
  rw [pydivE_ne hg] at hdlon
  injection hdlon with hdlon
  split at h
  · cases h
  rename_i latL hlat
  split at h
  · cases h
  rename_i dlat hdlat
  rw [pydivE_ne hg] at hdlat
  injection hdlat with hdlat
  split at h
  · cases h
  rename_i iL hi
  split at h
  · cases h
  rename_i dx hdx
  rw [pydivE_ne hg] at hdx
  injection hdx with hdx
  split at h
  · cases h
  rename_i jL hj
  split at h
  · cases h
  rename_i dy hdy
  rw [pydivE_ne hg] at hdy
  injection hdy with hdy
  split at h
  · cases h
  rename_i s1 hs1
  subst hm1
  subst hdlon
  subst hdlat
  subst hdx
  subst hdy
  exact ⟨hg, lonL, latL, iL, jL, s1, hlon, hlat, hi, hj, hs1, h⟩

/-- C6 (amended): every longitude value appended to a storm by
`fill_trajectory_gaps_new` lies in the closed interval `[0, 360]`: each
synthetic longitude is `round((previous + delta) % 360, 6)` with
`delta = (((lon - lon_last) + 180) % 360 - 180) / gap_length`, and the
six-decimal rounding applied after the `% 360` normalization can land on
`360` exactly (but never outside `[0, 360]`). -/
theorem gapfill_lon_in_closed_interval {storm : Storm} {step : Int}
    {lon lat : ℚ} {i j : Int} {cube : Cube} {tp : Int}
    {new_var : List (String × AuxVal)} {gap : Int} {mv : ℚ} {s' : Storm}
    (h : fill_trajectory_gaps_new storm step lon lat i j cube tp new_var gap mv = .ok s') :
    (s'.lon.drop storm.lon.length).all (fun q => decide (0 ≤ q ∧ q ≤ 360)) = true := by
  obtain ⟨hg, lonL, latL, iL, jL, s1, hlon, hlat, hi, hj, hs1, hv⟩ := fill_new_ok h
  obtain ⟨hvlat, hvlon, hvstep⟩ := varsFill_fields _ _ _ hv
  obtain ⟨_, h2, _, _⟩ := fillLoop_spec _ _ _ hs1
  rw [hvlon, h2 lonL hlon, List.drop_left]
  rw [List.all_eq_true]
  intro q hq
  have hb := iterAppend_lon_bound _ _ _ _ hq
  simp [hb.1, hb.2]

/-- Witness for C6 at the wraparound case of the claim:
`lon_last = 359.5`, `lon_new = 0.5`, `gap_length = 2` appends the single
interpolated longitude `0` (at the 0/360 seam, not 180), and every appended
longitude is within `[0, 360]`. -/
theorem gapfill_lon_in_closed_interval_witness :
    fill_trajectory_gaps_new stormW 3 (1/2) 10 5 6 cubeW 6 [] 2 (-99) =
      .ok ⟨[1, 2], [359.5, 0], [10, 10], [5, 5], [6, 6], [7, 7], [2000, 2000],
        [1, 1], [1, 1], [0, 6], [("psl", [AuxVal.scalar 100000])]⟩ ∧
    ((⟨[1, 2], [359.5, 0], [10, 10], [5, 5], [6, 6], [7, 7], [2000, 2000],
        [1, 1], [1, 1], [0, 6], [("psl", [AuxVal.scalar 100000])]⟩ : Storm).lon.drop
        stormW.lon.length).all (fun q => decide (0 ≤ q ∧ q ≤ 360)) = true := by
  have h : fill_trajectory_gaps_new stormW 3 (1/2) 10 5 6 cubeW 6 [] 2 (-99) =
      .ok ⟨[1, 2], [359.5, 0], [10, 10], [5, 5], [6, 6], [7, 7], [2000, 2000],
        [1, 1], [1, 1], [0, 6], [("psl", [AuxVal.scalar 100000])]⟩ := by decide
  exact ⟨h, gapfill_lon_in_closed_interval h⟩

/-- Counterexample to C6 as stated: with the last longitude
`359.9999996` (inside `[0, 360)`) and a zero interpolation delta, the
appended longitude is exactly `360`, which is not in the half-open
interval `[0, 360)`. -/
theorem gapfill_lon_counterexample :
    (fill_trajectory_gaps_new storm360 3 (3599999996/10000000) 0 5 6 cubeW 6
        [] 2 (-99)).toOption.map Storm.lon =
      some [3599999996/10000000, 360] ∧ ¬ ((360 : ℚ) < 360) := by
  exact ⟨by decide, by norm_num⟩

/-- C8: for every storm with a contiguous step array and every synthesized
gap (`gap = step - storm.step[-1] ≥ 1`), the step array after
`fill_trajectory_gaps_new`, extended with the step of the newly appended
point, is a contiguous strictly-increasing integer sequence with no
duplicates or skips. -/
theorem gapfill_step_contiguous {storm : Storm} {step : Int} {lon lat : ℚ}
    {i j : Int} {cube : Cube} {tp : Int} {new_var : List (String × AuxVal)}
    {mv : ℚ} {s' : Storm} {gap lastS : Int}
    (hc : contigB storm.step = true)
    (hlast : storm.step.getLast? = some lastS)
    (hgap : gap = step - lastS)
    (hg1 : 1 ≤ gap)
    (h : fill_trajectory_gaps_new storm step lon lat i j cube tp new_var gap mv = .ok s') :
    contigB (s'.step ++ [step]) = true := by
  obtain ⟨hg, lonL, latL, iL, jL, s1, hlon, hlat', hi, hj, hs1, hv⟩ := fill_new_ok h
  obtain ⟨_, _, hvstep⟩ := varsFill_fields _ _ _ hv
  obtain ⟨_, _, h3, _⟩ := fillLoop_spec _ _ _ hs1
  rw [hvstep, h3 lastS (lastE_of_getLast hlast)]
  obtain ⟨hc2, hl2⟩ := contigB_iter (gap - 1).toNat storm.step lastS hc hlast
  have h5 : (((gap - 1).toNat : Nat) : Int) = gap - 1 := Int.toNat_of_nonneg (by omega)
  have hstep_eq : step = (lastS + (((gap - 1).toNat : Nat) : Int)) + 1 := by omega
  rw [hstep_eq]
  exact contigB_snoc _ _ hc2 hl2

/-- Witness for C8: a one-point storm with step `[5]`, a new point at step
7 (gap 2), yields steps `[5, 6]` and, with the new point appended,
`[5, 6, 7]` is contiguous. -/
theorem gapfill_step_contiguous_witness :
    fill_trajectory_gaps_new (⟨[5], [0], [0], [0], [0], [1], [2000], [1], [1], [0], []⟩ : Storm)
        7 0 0 0 0 cubeW 6 [] 2 (-99) =
      .ok ⟨[5, 6], [0, 0], [0, 0], [0, 0], [0, 0], [1, 1], [2000, 2000], [1, 1],
        [1, 1], [0, 6], []⟩ ∧
    contigB ((⟨[5, 6], [0, 0], [0, 0], [0, 0], [0, 0], [1, 1], [2000, 2000], [1, 1],
        [1, 1], [0, 6], []⟩ : Storm).step ++ [7]) = true := by
  have h : fill_trajectory_gaps_new (⟨[5], [0], [0], [0], [0], [1], [2000], [1], [1], [0], []⟩ : Storm)
        7 0 0 0 0 cubeW 6 [] 2 (-99) =
      .ok ⟨[5, 6], [0, 0], [0, 0], [0, 0], [0, 0], [1, 1], [2000, 2000], [1, 1],
        [1, 1], [0, 6], []⟩ := by decide
  have h1 : contigB (⟨[5], [0], [0], [0], [0], [1], [2000], [1], [1], [0], []⟩ : Storm).step
      = true := by decide
  have h2 : (⟨[5], [0], [0], [0], [0], [1], [2000], [1], [1], [0], []⟩ : Storm).step.getLast?
      = some 5 := by decide
  have h3 : (2 : Int) = 7 - 5 := by decide
  have h4 : (1 : Int) ≤ 2 := by decide
  exact ⟨h, gapfill_step_contiguous h1 h2 h3 h4 h⟩

theorem varsFill_zero_noop {gapq mv : ℚ} (hq : gapq ≠ 0) :
    ∀ (nvs : List (String × AuxVal)) (s : Storm), (∀ nv ∈ nvs, VarOK s nv) →
      varsFill 0 gapq mv nvs s = .ok s := by
  intro nvs
  induction nvs with
  | nil => intro s h; rfl
  | cons nv rest ih =>
    intro s h
    obtain ⟨col, hcol, hsc⟩ := h nv (List.mem_cons_self _ _)
    obtain ⟨name, v⟩ := nv
    have hone : varFillOne 0 gapq mv s (name, v) = .ok s := by
      cases v with
      | profile xs =>
        simp only [varFillOne, hcol, List.replicate, List.append_nil]
        rw [assocSet_self _ _ _ hcol]
      | scalar x =>
        obtain ⟨q, hlastq⟩ := hsc
        simp only [varFillOne, hcol, lastE_of_getLast hlastq, pydivE_ne hq]
        show Except.ok { s with vars := assocSet s.vars name (appendScalars col q _ 0) } = _
        show Except.ok { s with vars := assocSet s.vars name col } = _
        rw [assocSet_self _ _ _ hcol]
    unfold varsFill
    rw [hone]
    exact ih s (fun nv2 h2 => h nv2 (List.mem_cons_of_mem _ h2))

/-- C2 (amended): `fill_trajectory_gaps_new` raises no `MalformedStormError`
(no such error exists in the code). A call with `gap_length = 0` fails with
`ZeroDivisionError` from the longitude-delta division, and a call with
`gap_length < 0` succeeds as a silent no-op, returning the storm
unchanged. -/
theorem gapfill_nonpositive_gap {storm : Storm} {lonL latL : ℚ} {iL jL : Int}
    (step : Int) (lon lat : ℚ) (i j : Int) (cube : Cube) (tp : Int)
    (new_var : List (String × AuxVal)) (mv : ℚ)
    (hlon : lastE storm.lon = .ok lonL) (hlat : lastE storm.lat = .ok latL)
    (hi : lastE storm.i = .ok iL) (hj : lastE storm.j = .ok jL)
    (hv : ∀ nv ∈ new_var, VarOK storm nv) :
    fill_trajectory_gaps_new storm step lon lat i j cube tp new_var 0 mv =
      .error .zeroDivision ∧
    ∀ gap : Int, gap < 0 →
      fill_trajectory_gaps_new storm step lon lat i j cube tp new_var gap mv =
        .ok storm := by
  constructor
  · unfold fill_trajectory_gaps_new
    simp only [hlon, pymodE_ne (show (360 : ℚ) ≠ 0 by norm_num)]
    norm_num [pydivE]
  · intro gap hgneg
    have hgz : gap ≠ 0 := by omega
    have hgq : ((gap : Int) : ℚ) ≠ 0 := Int.cast_ne_zero.mpr hgz
    have hn : (gap - 1).toNat = 0 := by omega
    unfold fill_trajectory_gaps_new
    simp only [hlon, pymodE_ne (show (360 : ℚ) ≠ 0 by norm_num), pydivE_ne hgq,
      hlat, hi, hj, hn, fillLoop]
    exact varsFill_zero_noop hgq _ _ hv

/-- Witness for C2 (amended) at a concrete storm: gap 0 raises
`ZeroDivisionError`, gap −3 is a silent no-op. -/
theorem gapfill_nonpositive_gap_witness :
    fill_trajectory_gaps_new stormW 3 (1/2) 10 5 6 cubeW 6
        [("psl", AuxVal.scalar 99)] 0 (-99) = .error .zeroDivision ∧
    fill_trajectory_gaps_new stormW 3 (1/2) 10 5 6 cubeW 6
        [("psl", AuxVal.scalar 99)] (-3) (-99) = .ok stormW := by
  have hv : ∀ nv ∈ [("psl", AuxVal.scalar 99)], VarOK stormW nv := by
    intro nv hnv
    rw [List.mem_singleton] at hnv
    subst hnv
    exact ⟨[AuxVal.scalar 100000], rfl, 100000, rfl⟩
  have hlo : lastE stormW.lon = .ok 359.5 := rfl
  have hla : lastE stormW.lat = .ok 10 := rfl
  have hii : lastE stormW.i = .ok 5 := rfl
  have hjj : lastE stormW.j = .ok 6 := rfl
  have h := gapfill_nonpositive_gap 3 (1/2) 10 5 6 cubeW 6
    [("psl", AuxVal.scalar 99)] (-99) hlo hla hii hjj hv
  exact ⟨h.1, h.2 (-3) (by decide)⟩

/-- Counterexample to C2 as stated: a call with `gap_length = -1 < 1` does
not fail at all — it returns `Except.ok` with the storm unchanged (a silent
no-op), and no `MalformedStormError` is raised. -/
theorem gapfill_negative_gap_counterexample :
    fill_trajectory_gaps_new stormW 3 (1/2) 10 5 6 cubeW 6
      [("psl", AuxVal.scalar 99)] (-1) (-99) = .ok stormW := by
  decide

/-- C10 (amended): the rounding policy of `fill_trajectory_gaps_new`. The
longitude and latitude deltas are not rounded before accumulation; instead
each synthetic position is the six-decimal-place rounding of
`previous + delta` (after `% 360` for longitude). A scalar auxiliary
variable's delta is rounded to five decimal places before accumulation, so
each synthetic value is the previous value plus the rounded delta. -/
theorem gapfill_rounding_policy {storm : Storm} {step : Int} {lon lat : ℚ}
    {i j : Int} {cube : Cube} {tp : Int} {vn : String} {x : ℚ} {gap : Int}
    {mv : ℚ} {s' : Storm} {lonL latL xl : ℚ} {col : List AuxVal}
    (hlon : lastE storm.lon = .ok lonL) (hlat : lastE storm.lat = .ok latL)
    (hcol : assocFind storm.vars vn = some col)
    (hxl : col.getLast? = some (AuxVal.scalar xl))
    (h : fill_trajectory_gaps_new storm step lon lat i j cube tp
      [(vn, AuxVal.scalar x)] gap mv = .ok s') :
    s'.lat = storm.lat ++
      iterAppend (fun v => pyroundDp 6 (v + (lat - latL) / ((gap : Int) : ℚ)))
        latL (gap - 1).toNat ∧
    s'.lon = storm.lon ++
      iterAppend (fun v => pyroundDp 6 (pymodQ
        (v + (pymodQ ((lon - lonL) + 180) 360 - 180) / ((gap : Int) : ℚ)) 360))
        lonL (gap - 1).toNat ∧
    assocFind s'.vars vn = some (col ++
      (iterAppend (fun v => v + pyroundDp 5 ((x - xl) / ((gap : Int) : ℚ)))
        xl (gap - 1).toNat).map AuxVal.scalar) := by
  obtain ⟨hg, lonL2, latL2, iL, jL, s1, hlon2, hlat2, hi2, hj2, hs1, hv⟩ := fill_new_ok h
  rw [hlon] at hlon2
  injection hlon2 with e1
  subst e1
  rw [hlat] at hlat2
  injection hlat2 with e2
  subst e2
  obtain ⟨hL1, hL2, hL3, hL4⟩ := fillLoop_spec _ _ _ hs1
  unfold varsFill at hv
  split at hv
  · cases hv
  rename_i s2 hs2
  unfold varsFill at hv
  injection hv with hv
  subst hv
  unfold varFillOne at hs2
  rw [hL4] at hs2
  simp only [hcol, lastE_of_getLast hxl, pydivE_ne hg] at hs2
  injection hs2 with hs2
  subst hs2
  refine ⟨?_, ?_, ?_⟩
  · exact hL1 latL hlat
  · exact hL2 lonL hlon
  · show assocFind (assocSet storm.vars vn
        (appendScalars col xl (pyroundDp 5 ((x - xl) / ((gap : Int) : ℚ)))
          (gap - 1).toNat)) vn = _
    rw [appendScalars_eq]
    exact assocFind_assocSet _ _ _ _ hcol

/-- Witness for C10 (amended) at a concrete run: `gap = 2` with
`lat` stepping from 10 toward 11 and a scalar `psl` stepping from 100000
toward 100500. -/
theorem gapfill_rounding_policy_witness :
    fill_trajectory_gaps_new stormW 3 (1/2) 11 7 8 cubeW 6
        [("psl", AuxVal.scalar 100500)] 2 (-99) =
      .ok ⟨[1, 2], [359.5, 0], [10, 21/2], [5, 6], [6, 7], [7, 7], [2000, 2000],
        [1, 1], [1, 1], [0, 6], [("psl", [AuxVal.scalar 100000, AuxVal.scalar 100250])]⟩ ∧
    ((⟨[1, 2], [359.5, 0], [10, 21/2], [5, 6], [6, 7], [7, 7], [2000, 2000],
        [1, 1], [1, 1], [0, 6], [("psl", [AuxVal.scalar 100000, AuxVal.scalar 100250])]⟩ : Storm).lat
      = stormW.lat ++
        iterAppend (fun v => pyroundDp 6 (v + (11 - 10) / ((2 : Int) : ℚ))) 10 1 ∧
    (⟨[1, 2], [359.5, 0], [10, 21/2], [5, 6], [6, 7], [7, 7], [2000, 2000],
        [1, 1], [1, 1], [0, 6], [("psl", [AuxVal.scalar 100000, AuxVal.scalar 100250])]⟩ : Storm).lon
      = stormW.lon ++
        iterAppend (fun v => pyroundDp 6 (pymodQ
          (v + (pymodQ ((1/2 - 359.5) + 180) 360 - 180) / ((2 : Int) : ℚ)) 360))
          359.5 1 ∧
    assocFind (⟨[1, 2], [359.5, 0], [10, 21/2], [5, 6], [6, 7], [7, 7], [2000, 2000],
        [1, 1], [1, 1], [0, 6], [("psl", [AuxVal.scalar 100000, AuxVal.scalar 100250])]⟩ : Storm).vars "psl"
      = some ([AuxVal.scalar 100000] ++
        (iterAppend (fun v => v + pyroundDp 5 ((100500 - 100000) / ((2 : Int) : ℚ)))
          100000 1).map AuxVal.scalar)) := by
  have h : fill_trajectory_gaps_new stormW 3 (1/2) 11 7 8 cubeW 6
        [("psl", AuxVal.scalar 100500)] 2 (-99) =
      .ok ⟨[1, 2], [359.5, 0], [10, 21/2], [5, 6], [6, 7], [7, 7], [2000, 2000],
        [1, 1], [1, 1], [0, 6], [("psl", [AuxVal.scalar 100000, AuxVal.scalar 100250])]⟩ := by
    decide
  have h2 : assocFind stormW.vars "psl" = some [AuxVal.scalar 100000] := rfl
  have h3 : ([AuxVal.scalar 100000] : List AuxVal).getLast? = some (AuxVal.scalar 100000) := rfl
  have hlo : lastE stormW.lon = .ok 359.5 := rfl
  have hla : lastE stormW.lat = .ok 10 := rfl
  exact ⟨h, gapfill_rounding_policy hlo hla h2 h3 h⟩

/-- Counterexample to C10 as stated: for latitude the delta is not rounded
before accumulation. With `lat_last = 6e-7`, `lat_new = 18e-7`,
`gap_length = 2` the code appends `round(lat_last + dlat, 6) = 1e-6`,
whereas accumulating a pre-rounded delta would give
`lat_last + round(dlat, 6) = 16e-7 ≠ 1e-6`. -/
theorem gapfill_rounding_counterexample :
    (fill_trajectory_gaps_new stormRnd 3 0 (18/10000000) 5 6 cubeW 6 [] 2
        (-99)).toOption.map Storm.lat = some [6/10000000, 1/1000000] ∧
    (1/1000000 : ℚ) ≠ 6/10000000 + pyroundDp 6 ((18/10000000 - 6/10000000) / 2) := by
  constructor
  · decide
  · decide

/-- C1 (amended): when the overlap-record list is empty the merger copies
the previous-window input verbatim to the previous-window output
(`copyfile`) and returns immediately, never creating the current-window
output file (modelled as `none`). -/
theorem merger_empty_records (prevLines currLines : List String)
    (cols : List (String × Int)) :
    remove_duplicates_from_track_files prevLines currLines [] cols =
      .ok (prevLines, none) := rfl

/-- Counterexample to C1 as stated: at a concrete input with empty overlap
records the merger produces `(previous input, no current output)`, not a
current-window output byte-identical to the current input. -/
theorem merger_empty_records_counterexample :
    remove_duplicates_from_track_files ["a\n"] ["b\n"] [] colsW =
      .ok (["a\n"], none) ∧
    (Except.ok (["a\n"], none) : Except PyErr (List String × Option (List String))) ≠
      .ok (["a\n"], some ["b\n"]) := by
  exact ⟨rfl, by decide⟩

/-! ### Temporal overlap -/

theorem one_le_filter_length {α : Type} (p : α → Bool) (l : List α) :
    1 ≤ (l.filter p).length ↔ ∃ a ∈ l, p a = true := by
  constructor
  · intro h
    cases hf : l.filter p with
    | nil => rw [hf] at h; simp at h
    | cons a t =>
      have ha : a ∈ l.filter p := by rw [hf]; exact List.mem_cons_self _ _
      have h2 := List.mem_filter.1 ha
      exact ⟨a, h2.1, h2.2⟩
  · rintro ⟨a, ha, hp⟩
    have h2 : a ∈ l.filter p := List.mem_filter.2 ⟨ha, hp⟩
    have hpos : 0 < (l.filter p).length := by
      rw [List.length_pos]
      intro hnil
      rw [hnil] at h2
      simp at h2
    omega

theorem storm_dates_eq_datesOf {s : Storm} (h : DatesOK s) :
    storm_dates s = .ok (datesOf s) := by
  obtain ⟨h1, h2, h3⟩ := h
  unfold storm_dates datesOf
  apply mapM_ok
  intro it hit
  rw [List.mem_range] at hit
  rw [listGetE_lt hit 0, listGetE_lt (show it < s.month.length by omega) 0,
    listGetE_lt (show it < s.day.length by omega) 0,
    listGetE_lt (show it < s.hour.length by omega) 0]

theorem datesOf_length (s : Storm) : (datesOf s).length = s.year.length := by
  simp [datesOf]

theorem overlapTimeGo_filter (setx : List String) :
    ∀ ys : List Storm, (∀ y ∈ ys, DatesOK y) →
      overlapTimeGo setx ys =
        .ok (ys.filter (fun y => decide (∃ d ∈ setx, d ∈ datesOf y))) := by
  intro ys
  induction ys with
  | nil => intro _; rfl
  | cons y rest ih =>
    intro h
    unfold overlapTimeGo
    simp only [storm_dates_eq_datesOf (h y (List.mem_cons_self _ _)),
      ih (fun z hz => h z (List.mem_cons_of_mem _ hz)), List.filter_cons]
    congr 1
    have hiff : (1 ≤ (setx.filter (fun d => decide (d ∈ (datesOf y).dedup))).length) ↔
        (decide (∃ d ∈ setx, d ∈ datesOf y) = true) := by
      rw [one_le_filter_length]
      simp [List.mem_dedup]
    exact if_congr hiff rfl rfl

/-- C9: `storms_overlap_in_time(storm_x, storms_y)` returns exactly those
storms of `storms_y`, in input order, whose date-key set intersects
`storm_x`'s date-key set in at least one element; and the sharing relation
is symmetric in content, so any member of `storms_y` sharing a date with
`storm_x` (in either orientation) appears in the result. -/
theorem storms_overlap_in_time_filter (storm_x : Storm) (storms_y : List Storm)
    (hx : DatesOK storm_x) (hys : ∀ y ∈ storms_y, DatesOK y) :
    storms_overlap_in_time storm_x storms_y =
      .ok (storms_y.filter (fun y => sharesB storm_x y)) ∧
    ∀ B ∈ storms_y, (∃ d, d ∈ datesOf B ∧ d ∈ datesOf storm_x) →
      B ∈ storms_y.filter (fun y => sharesB storm_x y) := by
  constructor
  · unfold storms_overlap_in_time
    simp only [storm_dates_eq_datesOf hx]
    rw [overlapTimeGo_filter _ _ hys]
    congr 1
    apply List.filter_congr
    intro y hy
    simp only [sharesB, decide_eq_decide, List.mem_dedup]
  · intro B hB hshare
    rw [List.mem_filter]
    refine ⟨hB, ?_⟩
    simp only [sharesB, decide_eq_true_eq]
    obtain ⟨d, hd1, hd2⟩ := hshare
    exact ⟨d, hd2, hd1⟩

/-- Witness for C9: the current-window storm shares date `2000010112` with
the previous-window storm, so the finder keeps exactly that storm; and
sharing in the reverse orientation also puts it in the result. -/
theorem storms_overlap_in_time_filter_witness :
    storms_overlap_in_time stormCW [stormPW] =
      .ok ([stormPW].filter (fun y => sharesB stormCW y)) ∧
    stormPW ∈ [stormPW].filter (fun y => sharesB stormCW y) := by
  have h := storms_overlap_in_time_filter stormCW [stormPW] ⟨rfl, rfl, rfl⟩
    (by intro y hy; rw [List.mem_singleton] at hy; subst hy; exact ⟨rfl, rfl, rfl⟩)
  refine ⟨h.1, ?_⟩
  refine h.2 stormPW (List.mem_singleton.2 rfl) ⟨"2000010112", ?_, ?_⟩
  · decide
  · decide

/-! ### Spatial overlap classification -/

theorem overlapSpaceGo_some (storm_c : Storm) (set_c : List String) (θ : ℚ) :
    ∀ (ys : List Storm) (r : OverlapRec),
      overlapSpaceGo storm_c set_c θ ys = .ok (some r) →
      r.late = storm_c ∧ r.offset = (r.time_p : Int) - (r.time_c : Int) ∧
      ∃ dp, storm_dates r.early = .ok dp ∧
        r.time_c = idxOf ((sharedSorted set_c dp).headD "") set_c ∧
        r.time_p = idxOf ((sharedSorted set_c dp).headD "") dp ∧
        r.method = classifyMethod storm_c.lat.length r.early.lat.length
          (sharedSorted set_c dp).length r.time_c r.time_p := by
  intro ys
  induction ys with
  | nil =>
    intro r h
    simp [overlapSpaceGo] at h
  | cons p rest ih =>
    intro r h
    unfold overlapSpaceGo at h
    split at h
    · cases h
    rename_i set_p hdp
    split at h
    · cases h
    rename_i o0 ho0
    split at h
    · cases h
    rename_i latc hlatc
    split at h
    · cases h
    rename_i latp hlatp
    split at h
    · cases h
    rename_i lonc hlonc
    split at h
    · cases h
    rename_i lonp hlonp
    split at h
    · rename_i hdist
      injection h with h
      injection h with h
      subst h
      refine ⟨rfl, rfl, set_p, hdp, ?_, ?_, ?_⟩
      · rw [listGetE_zero_headD "" ho0]
      · rw [listGetE_zero_headD "" ho0]
      · rfl
    · exact ih r h

/-- C3: whenever the spatial-overlap detector returns a record, the record
pairs the current storm as `late` with the accepted candidate as `early`,
carries `offset = time_p - time_c` for the indices of the first shared
date key in each storm's date list, and its `method` follows exactly the
claimed classification chain: `remove` when both storms' lengths equal the
size of their shared date-key set; else, at equal start indices, `remove`
when the late storm is at least as long and `extend_odd` when the early
storm is longer; `extend` when `time_p > time_c`; `remove` when
`time_c > time_p`. -/
theorem overlap_record_classification {storm_c : Storm} {storms_y : List Storm}
    {θ : ℚ} {r : OverlapRec}
    (h : storm_overlap_in_space storm_c storms_y θ = .ok (some r)) :
    r.late = storm_c ∧ r.offset = (r.time_p : Int) - (r.time_c : Int) ∧
    ∀ dc dp, storm_dates storm_c = .ok dc → storm_dates r.early = .ok dp →
      r.time_c = idxOf ((sharedSorted dc dp).headD "") dc ∧
      r.time_p = idxOf ((sharedSorted dc dp).headD "") dp ∧
      r.method =
        (if r.late.lat.length = r.early.lat.length ∧
            r.early.lat.length = (sharedSorted dc dp).length then "remove"
         else if r.time_c = r.time_p then
           (if r.early.lat.length ≤ r.late.lat.length then "remove" else "extend_odd")
         else if r.time_c < r.time_p then "extend"
         else "remove") := by
  unfold storm_overlap_in_space at h
  split at h
  · cases h
  rename_i set_c hdc0
  obtain ⟨h1, h2, dp0, hdp0, h3, h4, h5⟩ := overlapSpaceGo_some storm_c set_c θ _ r h
  refine ⟨h1, h2, ?_⟩
  intro dc dp hdc hdp
  rw [hdc0] at hdc
  injection hdc with hdc
  subst hdc
  rw [hdp0] at hdp
  injection hdp with hdp
  subst hdp
  rw [h1]
  exact ⟨h3, h4, h5⟩

/-- Witness for C3: the `extend` case of the classification at concrete
storms sharing the date `2000010112`, with `time_c = 0`, `time_p = 3`,
`offset = 3`. -/
theorem overlap_record_classification_witness :
    storm_overlap_in_space stormCW [stormPW] (1/2) =
      .ok (some ⟨stormPW, stormCW, 0, 3, 3, "extend"⟩) ∧
    (⟨stormPW, stormCW, 0, 3, 3, "extend"⟩ : OverlapRec).late = stormCW ∧
    (⟨stormPW, stormCW, 0, 3, 3, "extend"⟩ : OverlapRec).offset =
      ((3 : Nat) : Int) - ((0 : Nat) : Int) := by
  have h : storm_overlap_in_space stormCW [stormPW] (1/2) =
      .ok (some ⟨stormPW, stormCW, 0, 3, 3, "extend"⟩) := by decide
  have h2 := overlap_record_classification h
  exact ⟨h, h2.1.symm ▸ rfl, h2.2.1⟩

theorem mem_insOrd {a b : String} :
    ∀ {l : List String}, a ∈ insOrd b l ↔ a = b ∨ a ∈ l := by
  intro l
  induction l with
  | nil => simp [insOrd]
  | cons c t ih =>
    unfold insOrd
    by_cases hle : strLeB b c
    · simp [hle]
    · rw [if_neg hle]
      simp only [List.mem_cons, ih]
      tauto

theorem mem_insSort {a : String} : ∀ {l : List String}, a ∈ insSort l ↔ a ∈ l := by
  intro l
  induction l with
  | nil => simp [insSort]
  | cons b t ih => simp [insSort, mem_insOrd, ih]

theorem mem_sharedSorted {x : String} {dc dp : List String}
    (h : x ∈ sharedSorted dc dp) : x ∈ dc ∧ x ∈ dp := by
  unfold sharedSorted at h
  rw [mem_insSort] at h
  have h2 := List.mem_filter.1 h
  exact ⟨List.mem_dedup.1 h2.1, of_decide_eq_true h2.2⟩

theorem idxOf_lt_length {a : String} :
    ∀ {l : List String}, a ∈ l → idxOf a l < l.length := by
  intro l
  induction l with
  | nil => intro h; simp at h
  | cons b t ih =>
    intro h
    unfold idxOf
    by_cases hb : b = a
    · simp [hb]
    · rcases List.mem_cons.1 h with h1 | h1
      · exact absurd h1.symm hb
      · simp only [hb, if_false, List.length_cons]
        exact Nat.succ_lt_succ (ih h1)

theorem listGetE_zero_of_ne_nil {α : Type} {l : List α} (h : l ≠ []) (d : α) :
    listGetE l 0 = .ok (l.headD d) := by
  cases l with
  | nil => exact absurd rfl h
  | cons a t => rfl

theorem headD_mem {α : Type} {l : List α} (h : l ≠ []) (d : α) : l.headD d ∈ l := by
  cases l with
  | nil => exact absurd rfl h
  | cons a t => simp

theorem overlapSpaceGo_eq_find (storm_c : Storm) (θ : ℚ) (hc : WFo storm_c) :
    ∀ ys : List Storm,
      (∀ p ∈ ys, WFo p ∧ sharedSorted (datesOf storm_c) (datesOf p) ≠ []) →
      overlapSpaceGo storm_c (datesOf storm_c) θ ys =
        .ok ((ys.find? (fun p => passB storm_c p θ)).map (mkRecT storm_c)) := by
  obtain ⟨hcd, hclat, hclon⟩ := hc
  intro ys
  induction ys with
  | nil => intro _; rfl
  | cons p rest ih =>
    intro h
    obtain ⟨⟨hpd, hplat, hplon⟩, hne⟩ := h p (List.mem_cons_self _ _)
    have hmem := mem_sharedSorted (headD_mem hne "")
    have htc : idxOf ((sharedSorted (datesOf storm_c) (datesOf p)).headD "")
        (datesOf storm_c) < storm_c.lat.length := by
      rw [hclat, ← datesOf_length]
      exact idxOf_lt_length hmem.1
    have htc2 : idxOf ((sharedSorted (datesOf storm_c) (datesOf p)).headD "")
        (datesOf storm_c) < storm_c.lon.length := by
      rw [hclon, ← datesOf_length]
      exact idxOf_lt_length hmem.1
    have htp : idxOf ((sharedSorted (datesOf storm_c) (datesOf p)).headD "")
        (datesOf p) < p.lat.length := by
      rw [hplat, ← datesOf_length]
      exact idxOf_lt_length hmem.2
    have htp2 : idxOf ((sharedSorted (datesOf storm_c) (datesOf p)).headD "")
        (datesOf p) < p.lon.length := by
      rw [hplon, ← datesOf_length]
      exact idxOf_lt_length hmem.2
    unfold overlapSpaceGo
    simp only [storm_dates_eq_datesOf hpd, listGetE_zero_of_ne_nil hne "",
      listGetE_lt htc 0, listGetE_lt htp 0, listGetE_lt htc2 0, listGetE_lt htp2 0]
    by_cases hcond :
        |storm_c.lat.getD (idxOf ((sharedSorted (datesOf storm_c) (datesOf p)).headD "")
            (datesOf storm_c)) 0 -
          p.lat.getD (idxOf ((sharedSorted (datesOf storm_c) (datesOf p)).headD "")
            (datesOf p)) 0| < θ ∧
        |storm_c.lon.getD (idxOf ((sharedSorted (datesOf storm_c) (datesOf p)).headD "")
            (datesOf storm_c)) 0 -
          p.lon.getD (idxOf ((sharedSorted (datesOf storm_c) (datesOf p)).headD "")
            (datesOf p)) 0| < θ
    · rw [if_pos hcond]
      have hpb : passB storm_c p θ = true := by
        simp only [passB, decide_eq_true_eq]
        exact hcond
      have hfind : List.find? (fun q => passB storm_c q θ) (p :: rest) = some p :=
        List.find?_cons_of_pos _ (show (fun q => passB storm_c q θ) p = true from hpb)
      rw [hfind]
      rfl
    · rw [if_neg hcond]
      have hpb : ¬ (passB storm_c p θ = true) := by
        simp only [passB, decide_eq_true_eq]
        exact hcond
      have hfind : List.find? (fun q => passB storm_c q θ) (p :: rest) =
          List.find? (fun q => passB storm_c q θ) rest :=
        List.find?_cons_of_neg _ (show ¬ ((fun q => passB storm_c q θ) p = true) from hpb)
      rw [hfind]
      exact ih (fun z hz => h z (List.mem_cons_of_mem _ hz))

/-- C7: the spatial-overlap detector iterates candidates in input order,
accepts the first candidate whose axis-wise absolute latitude and longitude
differences at the first shared date key are each below the threshold
(`List.find?`), ends the search there, and returns `none` as a normal
outcome when no candidate passes both tests. -/
theorem spatial_overlap_first_match (storm_c : Storm) (storms_y : List Storm)
    (θ : ℚ) (hc : WFo storm_c)
    (hys : ∀ p ∈ storms_y, WFo p ∧ sharedSorted (datesOf storm_c) (datesOf p) ≠ []) :
    storm_overlap_in_space storm_c storms_y θ =
      .ok ((storms_y.find? (fun p => passB storm_c p θ)).map (mkRecT storm_c)) := by
  unfold storm_overlap_in_space
  simp only [storm_dates_eq_datesOf hc.1]
  exact overlapSpaceGo_eq_find storm_c θ hc storms_y hys

/-- Witness for C7 at concrete storms: the single candidate passes both
axis tests at the shared date and is returned as the match. -/
theorem spatial_overlap_first_match_witness :
    storm_overlap_in_space stormCW [stormPW] (1/2) =
      .ok (([stormPW].find? (fun p => passB stormCW p (1/2))).map (mkRecT stormCW)) := by
  refine spatial_overlap_first_match stormCW [stormPW] (1/2) ⟨⟨rfl, rfl, rfl⟩, rfl, rfl⟩ ?_
  intro p hp
  rw [List.mem_singleton] at hp
  subst hp
  refine ⟨⟨⟨rfl, rfl, rfl⟩, rfl, rfl⟩, ?_⟩
  decide

/-- C5: for a storm dictionary in the `i`/`j` key form produced by
`fill_trajectory_gaps_new` (and consumed by `save_trajectories_netcdf`),
which has no `grid_x`/`grid_y` keys, any call
`write_track_line(storm, no_lines, new_length, column_names)` with
`no_lines ≥ 1` raises `KeyError` for the missing `grid_x` key before any
point line is produced, because the formatter reads `storm["grid_x"]`
(and `storm["grid_y"]`). -/
theorem write_track_line_keyerror_ij {storm : StormDict} {no_lines new_length : Int}
    {cols : List (String × Int)} {ys ms ds hs : List Int} {y0 m0 d0 h0 : Int}
    {co : List String}
    (hy : dGetIntsE storm "year" = .ok ys) (hy0 : listGetE ys 0 = .ok y0)
    (hm : dGetIntsE storm "month" = .ok ms) (hm0 : listGetE ms 0 = .ok m0)
    (hd : dGetIntsE storm "day" = .ok ds) (hd0 : listGetE ds 0 = .ok d0)
    (hh : dGetIntsE storm "hour" = .ok hs) (hh0 : listGetE hs 0 = .ok h0)
    (hco : colOrderedE cols = .ok co)
    (hgx : assocFind storm "grid_x" = (none : Option DVal))
    (hn : 1 ≤ no_lines) :
    write_track_line storm no_lines new_length cols = .error (.keyError "grid_x") := by
  unfold write_track_line
  simp only [hy, hy0, hm, hm0, hd, hd0, hh, hh0, hco, dLookupE, hgx]

/-- Witness for C5: the concrete `i`/`j`-form storm dictionary makes
`write_track_line` fail with `KeyError "grid_x"` at `no_lines = 1`. -/
theorem write_track_line_keyerror_ij_witness :
    write_track_line stormIJW 1 1 colsW = .error (.keyError "grid_x") := by
  have hy : dGetIntsE stormIJW "year" = .ok [2000] := rfl
  have hm : dGetIntsE stormIJW "month" = .ok [1] := rfl
  have hd : dGetIntsE stormIJW "day" = .ok [1] := rfl
  have hh : dGetIntsE stormIJW "hour" = .ok [12] := rfl
  have hco : colOrderedE colsW =
      .ok ["grid_x", "grid_y", "lon", "lat", "year", "month", "day", "hour"] := by decide
  have hgx : assocFind stormIJW "grid_x" = (none : Option DVal) := rfl
  exact write_track_line_keyerror_ij hy rfl hm rfl hd rfl hh rfl hco hgx (by decide)

/-! ### The current-file pass of the merger -/

theorem runCurr_cons {sm : List OverlapD} {cols : List (String × Int)}
    {st : Option MergeSt} {l : String} {ls : List String}
    {st1 : Option MergeSt} {out1 : List String} {stf : Option MergeSt}
    {outf : List String}
    (h1 : processCurrLine sm cols st l = .ok (st1, out1))
    (h2 : runCurr sm cols st1 ls = .ok (stf, outf)) :
    runCurr sm cols st (l :: ls) = .ok (stf, out1 ++ outf) := by
  unfold runCurr
  simp only [h1, h2]

theorem runCurr_points (sm : List OverlapD) (cols : List (String × Int))
    (tl : Int) (b : Bool) (lh sd : String) :
    ∀ (pts : List String) (j : Nat), 1 ≤ j → (j : Int) + pts.length ≤ tl + 1 →
      (∀ p ∈ pts, containsStart p = false ∧ ∃ q, pointLLE (pySplit p) = .ok q) →
      runCurr sm cols (some ⟨j, tl, b, lh, sd⟩) pts =
        .ok (some ⟨j + pts.length, tl, b, lh, sd⟩, pts) := by
  intro pts
  induction pts with
  | nil =>
    intro j h1 h2 h3
    simp [runCurr]
  | cons p rest ih =>
    intro j h1 h2 h3
    obtain ⟨hcs, q, hq⟩ := h3 p (List.mem_cons_self _ _)
    have hle : ((j : Nat) : Int) ≤ tl := by
      simp only [List.length_cons] at h2
      push_cast at h2
      omega
    have hj0 : ¬ (j = 0) := by omega
    have hstep : processCurrLine sm cols (some ⟨j, tl, b, lh, sd⟩) p =
        .ok (some ⟨j + 1, tl, b, lh, sd⟩, [p]) := by
      unfold processCurrLine
      simp [hcs, hq, hle, hj0]
    have hrest := ih (j + 1) (by omega)
      (by
        simp only [List.length_cons] at h2
        push_cast at h2 ⊢
        omega)
      (fun z hz => h3 z (List.mem_cons_of_mem _ hz))
    have hall := runCurr_cons hstep hrest
    rw [hall]
    have h4 : j + 1 + rest.length = j + (rest.length + 1) := by omega
    simp [h4]

/-- C4: in the current-file pass, a track block whose first point line is
matched to an overlap record with method `extend` is rewritten as: a new
header produced by `write_track_line` with point count
`track_length + offset`, then the `offset` lead-in point lines synthesized
by the same formatter from the early storm's points at indices
`[0, offset)`, then the original block's point lines unchanged — starting
from any prior pass state. -/
theorem currpass_extend_block (sm : List OverlapD) (cols : List (String × Int))
    (st0 : Option MergeSt) (hd p0 : String) (rest : List String)
    (tl : Int) (sd : String) (lon0 lat0 : ℚ) (early : StormDict) (offset : Int)
    (nh : String) (nls : List String)
    (hhdr : containsStart hd = true)
    (hinfo : headerInfoE (pySplit hd) = .ok (tl, sd))
    (hlen : (((p0 :: rest).length : Nat) : Int) = tl)
    (hpts : ∀ p ∈ p0 :: rest, containsStart p = false ∧ ∃ q, pointLLE (pySplit p) = .ok q)
    (hll : pointLLE (pySplit p0) = .ok (lon0, lat0))
    (hmatch : findLateMatch sd tl lon0 lat0 sm none = .ok (some ("extend", early, offset)))
    (hw : write_track_line early offset (tl + offset) cols = .ok (nh, nls)) :
    runCurr sm cols st0 (hd :: p0 :: rest) =
      .ok (some ⟨(p0 :: rest).length, tl, true, nh, sd⟩, nh :: (nls ++ (p0 :: rest))) := by
  have h1 : 1 ≤ tl := by
    simp only [List.length_cons] at hlen
    push_cast at hlen
    omega
  have hstep0 : processCurrLine sm cols st0 hd = .ok (some ⟨0, tl, false, hd, sd⟩, []) := by
    unfold processCurrLine
    simp [hhdr, hinfo]
  obtain ⟨hcs0, _⟩ := hpts p0 (List.mem_cons_self _ _)
  have hc1 : ((0 : Nat) : Int) ≤ tl := by omega
  have hstep1 : processCurrLine sm cols (some ⟨0, tl, false, hd, sd⟩) p0 =
      .ok (some ⟨1, tl, true, nh, sd⟩, nh :: (nls ++ [p0])) := by
    unfold processCurrLine
    simp [hcs0, hll, hmatch, hw, hc1]
    omega
  have hrest := runCurr_points sm cols tl true nh sd rest 1 (by omega)
    (by
      simp only [List.length_cons] at hlen
      push_cast at hlen ⊢
      omega)
    (fun z hz => hpts z (List.mem_cons_of_mem _ hz))
  have hs2 := runCurr_cons hstep1 hrest
  have hs3 := runCurr_cons hstep0 hs2
  rw [hs3]
  have h4 : 1 + rest.length = (p0 :: rest).length := by simp [Nat.add_comm]
  simp [h4, List.append_assoc]

/-- Witness for C4: the concrete current-window file block (length 3,
start 2000-01-01 12:00) matched by the `extend` record with offset 3 is
rewritten to a header carrying point count 6, the three synthesized
lead-in lines from the early storm's first three points, and the original
three point lines unchanged. -/
theorem currpass_extend_block_witness :
    runCurr [recDW] colsW none
        ["start   3      2000    1       1      12\n",
         "        1     2     10.300000      20.300000      2000    1       1      12 \n",
         "        1     2     10.400000      20.400000      2000    1       1      18 \n",
         "        1     2     10.500000      20.500000      2000    1       1      24 \n"] =
      .ok (some ⟨("        1     2     10.300000      20.300000      2000    1       1      12 \n" ::
            ["        1     2     10.400000      20.400000      2000    1       1      18 \n",
             "        1     2     10.500000      20.500000      2000    1       1      24 \n"]).length,
          3, true, "start   6      1999    12       31      18\n", "2000010112"⟩,
        "start   6      1999    12       31      18\n" ::
          (["        1     2     10.000000      20.000000      1999    12       31      18 \n",
            "        1     2     10.100000      20.100000      2000    1       1      0 \n",
            "        1     2     10.200000      20.200000      2000    1       1      6 \n"] ++
           ("        1     2     10.300000      20.300000      2000    1       1      12 \n" ::
            ["        1     2     10.400000      20.400000      2000    1       1      18 \n",
             "        1     2     10.500000      20.500000      2000    1       1      24 \n"]))) := by
  refine currpass_extend_block [recDW] colsW none _ _ _ 3 "2000010112" (103/10) (203/10)
    earlyDW 3 _ _ (by decide) (by decide) (by decide) ?_ (by decide) (by decide) (by decide)
  intro p hp
  simp only [List.mem_cons, List.not_mem_nil, or_false] at hp
  rcases hp with rfl | rfl | rfl
  · exact ⟨by decide, ⟨(103/10, 203/10), by decide⟩⟩
  · exact ⟨by decide, ⟨(52/5, 102/5), by decide⟩⟩
  · exact ⟨by decide, ⟨(21/2, 41/2), by decide⟩⟩
